import Mathlib

/-!
# A relay broker between device and web connections: `src/socket.js`

Shallow embedding of the connection registry of `socket.js` (the four module-level
`Map`s and the event handlers installed by `initSocket`) and proofs about it.

Modelling conventions.

* A JavaScript `Map` is an insertion-ordered association list (`JMap`): `set` on a key that
  is present replaces the value in place, `set` on a new key appends, `delete` removes.
* A payload field is a `JVal`; a field that is missing is `JVal.undefined`. Truthiness
  follows JavaScript. A payload is `some` record of fields, or `none` when the event comes
  without payload (`data` is `undefined` or `null`): the first read of a field of `data`
  then raises a `TypeError`, before the handler has done anything.
* A template literal converts the interpolated value to a string. For an object or array
  whose conversion gives no primitive (`JVal.unprintable`, as `{"toString": null}`) this
  raises a `TypeError`: at the `console.log` of the `disconnect` handler, at the
  `console.log` of the `device:login` handler and in the device-offline message. The
  confirmation message of a forwarded command interpolates an id that was found as a key
  of `deviceConnect`; a parsed payload object is a new reference and is never found, so
  that conversion is of a primitive and is not modelled as raising.
* A raised `TypeError` ends the handler (and the handler that called it); the registry
  keeps what the handler had done until then, and later events are handled in it.
* A socket is identified by its `id`; `socket.emit` and `socket.disconnect` are recorded as
  `Action`s in the order the handler performs them.
* `timestamp: Date.now()` and the output of `console.log` are not modelled.
* `socket.disconnect()` on a socket found in `connect` runs that socket's `disconnect`
  handler synchronously, before the caller continues.
* `connect.get(k).emit(..)` with `k` not in `connect` raises a `TypeError`; the handler stops
  there (`Outcome.raised`).
* A test `m.has(k)` followed by `m.get(k)` is a `match` on `m.get k`: `has` is `true`
  exactly when `get` finds a value.
* The transport gives a new socket a non-empty id that no socket in `connect` has, and
  delivers the events of a socket, its `disconnect` included, only while the socket is in
  `connect`: a socket enters at its connection and leaves when its `disconnect` handler
  completes.
-/

namespace Broker

/-! ## JavaScript values and maps -/

/-- A JavaScript value as far as the handlers look at it. Numbers are kept as integers
(a payload arrives as JSON, so there is no NaN); an object or array is known by its
reference, which is what truthiness and `Map` key equality look at, and by whether its
conversion to a string succeeds (`obj`) or raises (`unprintable`). -/
inductive JVal where
  | undefined
  | null
  | bool (b : Bool)
  | num (n : Int)
  | str (s : String)
  | obj (ref : Nat)
  | unprintable (ref : Nat)
  deriving DecidableEq

/-- JavaScript truthiness: `undefined`, `null`, `false`, `0` and `""` are falsy. -/
def JVal.truthy : JVal → Bool
  | .undefined => false
  | .null => false
  | .bool b => b
  | .num n => n != 0
  | .str s => s != ""
  | .obj _ => true
  | .unprintable _ => true

/-- Whether the conversion to a string in a template literal succeeds: it does for every
primitive, and for an object or array unless neither `toString` nor `valueOf` gives a
primitive. -/
def JVal.printable : JVal → Bool
  | .unprintable _ => false
  | _ => true

/-- An insertion-ordered map, as a JavaScript `Map`. -/
structure JMap (K : Type) (V : Type) where
  entries : List (K × V)
  deriving DecidableEq

namespace JMap

variable {K V : Type} [DecidableEq K]

/-- The result of `new Map()`. -/
def empty : JMap K V := ⟨[]⟩

/-- Lookup in an entry list: the value of the first entry with key `k`. -/
def getL : List (K × V) → K → Option V
  | [], _ => none
  | (k', v) :: m, k => if k' = k then some v else getL m k

/-- Entry list after `set`: replace in place when the key is present, else append. -/
def setL : List (K × V) → K → V → List (K × V)
  | [], k, v => [(k, v)]
  | (k', v') :: m, k, v => if k' = k then (k, v) :: m else (k', v') :: setL m k v

/-- Entry list after `delete`: the entries with key `k` are dropped. -/
def delL : List (K × V) → K → List (K × V)
  | [], _ => []
  | (k', v') :: m, k => if k' = k then delL m k else (k', v') :: delL m k

/-- `Map.prototype.get`; `none` stands for the `undefined` of an absent key. -/
def get (m : JMap K V) (k : K) : Option V := getL m.entries k

/-- `Map.prototype.has`. -/
def has (m : JMap K V) (k : K) : Bool := (m.get k).isSome

/-- `Map.prototype.set`. -/
def set (m : JMap K V) (k : K) (v : V) : JMap K V := ⟨setL m.entries k v⟩

/-- `Map.prototype.delete`. -/
def delete (m : JMap K V) (k : K) : JMap K V := ⟨delL m.entries k⟩

/-- `Array.from(m.keys())`: the keys in iteration order. -/
def keys (m : JMap K V) : List K := m.entries.map Prod.fst

/-- The values in iteration order, the order in which `forEach` visits them. -/
def values (m : JMap K V) : List V := m.entries.map Prod.snd

/-- `Map.prototype.size`. -/
def size (m : JMap K V) : Nat := m.entries.length

end JMap

/-! ## Sockets, payloads, outbound messages -/

/-- A transport connection; `socket.id` is all the handlers read of it. -/
structure Socket where
  id : String
  deriving DecidableEq

/-- The text of a `message` field: a literal, or a template literal with one
interpolated value. -/
inductive Text where
  | lit (s : String)
  | tmpl (pre : String) (v : JVal) (post : String)
  deriving DecidableEq

/-- The payload of `web:login`. -/
structure WebLoginData where
  username : JVal
  password : JVal
  deriving DecidableEq

/-- The payload of `web:device_cmd`. -/
structure DeviceCmdData where
  deviceId : JVal
  command : JVal
  params : JVal
  deriving DecidableEq

/-- The payload of `device:login`. -/
structure DeviceLoginData where
  deviceId : JVal
  deriving DecidableEq

/-- The payload of `device:cmd_result`; `dest` is its `to` field. -/
structure CmdResultData where
  dest : JVal
  command : JVal
  success : JVal
  result : JVal
  message : JVal
  deriving DecidableEq

/-- An outbound event with its payload (without the timestamp). -/
inductive OutMsg where
  | sysMessage (type : String) (message : Text)
  | pong
  | webLoginResult (success : Bool) (message : String) (username : Option JVal)
  | sysDeviceList (devices : List JVal) (count : Nat)
  | webCmdResult (success : Bool) (message : Text)
  | deviceCmd (command : JVal) (params : JVal) (frm : String)
  | deviceLoginResult (success : Bool) (message : String) (deviceId : Option JVal)
  | webDeviceCmdResult (deviceId : JVal) (command : JVal) (success : JVal) (result : JVal)
      (message : JVal)
  deriving DecidableEq

/-- What a handler does to a socket: `socket.emit(..)` or `socket.disconnect()`. -/
inductive Action where
  | emit (target : String) (msg : OutMsg)
  | close (target : String)
  deriving DecidableEq

/-! ## Registry state -/

/-- The four module-level maps. -/
structure State where
  connect : JMap String Socket
  deviceConnect : JMap JVal String
  webConnect : JMap String Socket
  deviceSocketMap : JMap String JVal
  deriving DecidableEq

/-- The state at module load: four empty maps. -/
def State.empty : State := ⟨JMap.empty, JMap.empty, JMap.empty, JMap.empty⟩

/-- The result of running a handler: the registry afterwards, the actions performed in
order, and whether the handler stopped on a raised `TypeError`. -/
structure Outcome where
  state : State
  out : List Action
  raised : Bool
  deriving DecidableEq

/-- `connect.get(v)` / `connect.has(v)` for a payload value `v`: the keys of `connect` are
strings, so only a string can be found. -/
def lookupSocket (m : JMap String Socket) (v : JVal) : Option Socket :=
  match v with
  | .str k => m.get k
  | _ => none

/-! ## Handlers -/

/-- The function `sendDeviceList(socket)`. -/
def sendDeviceList (s : State) (socket : Socket) : List Action :=
  [Action.emit socket.id (OutMsg.sysDeviceList s.deviceConnect.keys s.deviceConnect.size)]

/-- The function `broadcastDeviceListUpdate()`: `webConnect.forEach(sendDeviceList)`. -/
def broadcastDeviceListUpdate (s : State) : List Action :=
  s.webConnect.values.flatMap (sendDeviceList s)

/-- The text of the eviction notice. -/
def evictionText : Text := Text.lit "该设备已在其他地方登录"

/-- The text of the malformed-command rejection. -/
def malformedText : Text := Text.lit "命令格式不正确"

/-- The text of the device-offline rejection for device id `d`. -/
def offlineText (d : JVal) : Text := Text.tmpl "设备 " d " 不在线"

/-- The text of the command-sent confirmation for device id `d`. -/
def sentText (d : JVal) : Text := Text.tmpl "命令已发送到设备 " d ""

/-- The handler of `io.on("connection")`, up to the registration of the event handlers. -/
def onConnection (s : State) (socket : Socket) : Outcome :=
  { state := { s with connect := s.connect.set socket.id socket }
    out := [Action.emit socket.id
      (OutMsg.sysMessage "connect" (Text.tmpl "连接成功 → " (JVal.str socket.id) ""))]
    raised := false }

/-- The handler of `ping`. -/
def onPing (s : State) (socket : Socket) : Outcome :=
  { state := s, out := [Action.emit socket.id OutMsg.pong], raised := false }

/-- The outcome of a handler that raises in registry `s` after the actions `out`. -/
def raise (s : State) (out : List Action) : Outcome :=
  { state := s, out := out, raised := true }

/-- The two deletes of the device block of the `disconnect` handler. -/
def dropDevice (s : State) (socket : Socket) (deviceId : JVal) : State :=
  { s with deviceConnect := s.deviceConnect.delete deviceId
           deviceSocketMap := s.deviceSocketMap.delete socket.id }

/-- The last two blocks of the `disconnect` handler: the socket leaves `webConnect` and
`connect`. -/
def dropConnection (s : State) (socket : Socket) : State :=
  let s2 : State :=
    if s.webConnect.has socket.id then
      { s with webConnect := s.webConnect.delete socket.id } else s
  if s2.connect.has socket.id then
    { s2 with connect := s2.connect.delete socket.id } else s2

/-- The first block of the `disconnect` handler: the device cleanup, the `console.log` of
the device id, which raises when the id has no string conversion, and the broadcast. -/
def disconnectDevice (s : State) (socket : Socket) : Outcome :=
  match s.deviceSocketMap.get socket.id with
  | some deviceId =>
    let s1 := dropDevice s socket deviceId
    if deviceId.printable then
      { state := s1, out := broadcastDeviceListUpdate s1, raised := false }
    else raise s1 []
  | none => { state := s, out := [], raised := false }

/-- The handler of `disconnect`: the device block, and, unless that raised, the removal of
the socket from `webConnect` and `connect`. -/
def onDisconnect (s : State) (socket : Socket) : Outcome :=
  let r := disconnectDevice s socket
  if r.raised then r
  else { state := dropConnection r.state socket, out := r.out, raised := false }

/-- The handler of `web:login`; the payload is read first, its `console.log` takes `data`
as an argument of its own and converts nothing. -/
def onWebLogin (s : State) (socket : Socket) (payload : Option WebLoginData) : Outcome :=
  match payload with
  | none => raise s []
  | some data =>
    if data.username.truthy && data.password.truthy then
      let s1 : State := { s with webConnect := s.webConnect.set socket.id socket }
      { state := s1
        out := Action.emit socket.id (OutMsg.webLoginResult true "登录成功" (some data.username))
          :: sendDeviceList s1 socket
        raised := false }
    else
      { state := s
        out := [Action.emit socket.id (OutMsg.webLoginResult false "用户名和密码不能为空" none)]
        raised := false }

/-- The handler of `web:get_device_list`. -/
def onWebGetDeviceList (s : State) (socket : Socket) : Outcome :=
  { state := s, out := sendDeviceList s socket, raised := false }

/-- The handler of `web:device_cmd`: the check of the three fields, the check that the
device id is a key of `deviceConnect`, whose rejection message converts the device id to a
string and raises when it has no conversion, and the forwarding. The confirmation message
converts a device id that was found as a key of `deviceConnect`, which for a parsed
payload is never an object. -/
def onWebDeviceCmd (s : State) (socket : Socket) (payload : Option DeviceCmdData) : Outcome :=
  match payload with
  | none => raise s []
  | some data =>
    if !data.deviceId.truthy || !data.command.truthy || !data.params.truthy then
      { state := s
        out := [Action.emit socket.id (OutMsg.webCmdResult false malformedText)]
        raised := false }
    else
      match s.deviceConnect.get data.deviceId with
      | none =>
        if data.deviceId.printable then
          { state := s
            out := [Action.emit socket.id
              (OutMsg.webCmdResult false (offlineText data.deviceId))]
            raised := false }
        else raise s []
      | some deviceSocketId =>
        match s.connect.get deviceSocketId with
        | none => raise s []
        | some device =>
          { state := s
            out := [Action.emit device.id (OutMsg.deviceCmd data.command data.params socket.id),
                    Action.emit socket.id (OutMsg.webCmdResult true (sentText data.deviceId))]
            raised := false }

/-- The eviction block of the `device:login` handler: when the device id is held by another
socket id that is still in `connect`, notify that socket and disconnect it, which runs its
`disconnect` handler; when that handler raises, so does the eviction. -/
def evictExisting (s : State) (socket : Socket) (deviceId : JVal) : Outcome :=
  match s.deviceConnect.get deviceId with
  | some existingSocketId =>
    if existingSocketId ≠ socket.id then
      match s.connect.get existingSocketId with
      | some existing =>
        let r := onDisconnect s existing
        { state := r.state
          out := Action.emit existing.id (OutMsg.sysMessage "error" evictionText)
            :: Action.close existing.id :: r.out
          raised := r.raised }
      | none => { state := s, out := [], raised := false }
    else { state := s, out := [], raised := false }
  | none => { state := s, out := [], raised := false }

/-- The registration step of the `device:login` handler: the two `set` calls. -/
def registerDevice (s : State) (socket : Socket) (deviceId : JVal) : State :=
  { s with deviceConnect := s.deviceConnect.set deviceId socket.id
           deviceSocketMap := s.deviceSocketMap.set socket.id deviceId }

/-- The handler of `device:login`: the check of the device id, the eviction, the
registration, the acknowledgment, the `console.log` of the device id, which raises when
the id has no string conversion, and the broadcast. -/
def onDeviceLogin (s : State) (socket : Socket) (payload : Option DeviceLoginData) : Outcome :=
  match payload with
  | none => raise s []
  | some data =>
    if !data.deviceId.truthy then
      { state := s
        out := [Action.emit socket.id (OutMsg.deviceLoginResult false "设备ID不能为空" none)]
        raised := false }
    else
      let r := evictExisting s socket data.deviceId
      if r.raised then r
      else
        let s2 := registerDevice r.state socket data.deviceId
        let ack := Action.emit socket.id
          (OutMsg.deviceLoginResult true "设备登录成功" (some data.deviceId))
        if data.deviceId.printable then
          { state := s2, out := r.out ++ ack :: broadcastDeviceListUpdate s2, raised := false }
        else raise s2 (r.out ++ [ack])

/-- The handler of `device:cmd_result`; `data.to` is the first read of the payload. -/
def onDeviceCmdResult (s : State) (socket : Socket) (payload : Option CmdResultData) :
    Outcome :=
  match payload with
  | none => raise s []
  | some data =>
    if data.dest.truthy then
      match lookupSocket s.connect data.dest with
      | some target =>
        { state := s
          out := [Action.emit target.id
            (OutMsg.webDeviceCmdResult ((s.deviceSocketMap.get socket.id).getD JVal.undefined)
              data.command data.success data.result data.message)]
          raised := false }
      | none => { state := s, out := [], raised := false }
    else { state := s, out := [], raised := false }

/-! ## Events and reachable states -/

/-- An inbound event: a new connection, or one of the events of a socket. -/
inductive Event where
  | connection (socket : Socket)
  | ping (socket : Socket)
  | disconnect (socket : Socket)
  | webLogin (socket : Socket) (payload : Option WebLoginData)
  | webGetDeviceList (socket : Socket)
  | webDeviceCmd (socket : Socket) (payload : Option DeviceCmdData)
  | deviceLogin (socket : Socket) (payload : Option DeviceLoginData)
  | deviceCmdResult (socket : Socket) (payload : Option CmdResultData)
  deriving DecidableEq

/-- The socket an event belongs to. -/
def Event.socket : Event → Socket
  | .connection c => c
  | .ping c => c
  | .disconnect c => c
  | .webLogin c _ => c
  | .webGetDeviceList c => c
  | .webDeviceCmd c _ => c
  | .deviceLogin c _ => c
  | .deviceCmdResult c _ => c

/-- Dispatch of an event to its handler. -/
def handle (s : State) : Event → Outcome
  | .connection c => onConnection s c
  | .ping c => onPing s c
  | .disconnect c => onDisconnect s c
  | .webLogin c data => onWebLogin s c data
  | .webGetDeviceList c => onWebGetDeviceList s c
  | .webDeviceCmd c data => onWebDeviceCmd s c data
  | .deviceLogin c data => onDeviceLogin s c data
  | .deviceCmdResult c data => onDeviceCmdResult s c data

/-- What the transport can deliver in state `s`: a connection comes with a non-empty id
that no socket in `connect` has; every other event comes from a socket that is in
`connect`, where a socket is from its connection until its `disconnect` handler
completes. -/
def enabled (s : State) : Event → Bool
  | .connection c => c.id != "" && !s.connect.has c.id
  | ev => decide (s.connect.get ev.socket.id = some ev.socket)

/-- Discipline: a socket that holds a device id does not log in under a different one. -/
def noRebind (s : State) : Event → Bool
  | .deviceLogin c (some data) =>
      !data.deviceId.truthy || decide (s.deviceSocketMap.get c.id = none) ||
        decide (s.deviceSocketMap.get c.id = some data.deviceId)
  | _ => true

/-- Discipline: a socket does not take both identity classes: no `device:login` from a
socket in the web table, no `web:login` from a socket that holds a device id. -/
def noClassSwitch (s : State) : Event → Bool
  | .deviceLogin c (some data) => !data.deviceId.truthy || !s.webConnect.has c.id
  | .webLogin c (some data) =>
      !(data.username.truthy && data.password.truthy) || !s.deviceSocketMap.has c.id
  | _ => true

/-- Discipline: one identity per socket, both `noRebind` and `noClassSwitch`. -/
def oneIdentity (s : State) (ev : Event) : Bool := noRebind s ev && noClassSwitch s ev

/-- No discipline: every event the transport can deliver is allowed. -/
def anyEvent (_ : State) (_ : Event) : Bool := true

/-- The registry after a sequence of events, oldest first, each delivered only if the
transport can deliver it and the discipline `ok` allows it (`none` otherwise). -/
def runBy (ok : State → Event → Bool) (s : State) : List Event → Option State
  | [] => some s
  | ev :: evs => if enabled s ev && ok s ev then runBy ok (handle s ev).state evs else none

/-- The registry after a sequence of events that the transport can deliver. -/
def run (s : State) (evs : List Event) : Option State := runBy anyEvent s evs

/-- The states reachable from the empty registry when every event delivered satisfies the
discipline `ok` (a condition on the state it arrives in). -/
inductive ReachableBy (ok : State → Event → Bool) : State → Prop where
  | init : ReachableBy ok State.empty
  | step {s : State} (ev : Event) :
      ReachableBy ok s → enabled s ev = true → ok s ev = true →
        ReachableBy ok (handle s ev).state

/-- The states reachable from the empty registry by any sequence of events. -/
def Reachable (s : State) : Prop := ReachableBy anyEvent s

/-! ## Reading the actions of a handler -/

/-- The messages emitted to the socket with id `c`, in order. -/
def receivedBy (c : String) (out : List Action) : List OutMsg :=
  out.filterMap fun a =>
    match a with
    | Action.emit target msg => if target = c then some msg else none
    | Action.close _ => none

/-- Whether a message is a `sys:message`. -/
def OutMsg.isSysMessage : OutMsg → Bool
  | .sysMessage _ _ => true
  | _ => false

/-- Whether a message is a `device:cmd`. -/
def OutMsg.isDeviceCmd : OutMsg → Bool
  | .deviceCmd _ _ _ => true
  | _ => false

/-- The messages of a list of actions, whatever the socket. -/
def emitted (out : List Action) : List OutMsg :=
  out.filterMap fun a =>
    match a with
    | Action.emit _ msg => some msg
    | Action.close _ => none

/-- The eviction notice: a `sys:message` of type `error`. -/
def evictionNotice : OutMsg := OutMsg.sysMessage "error" evictionText

/-- The acknowledgment of a successful `device:login` for device id `d`. -/
def deviceLoginOk (d : JVal) : OutMsg := OutMsg.deviceLoginResult true "设备登录成功" (some d)

/-! ## Sample sockets, states and event sequences -/

/-- A socket with id `a`. -/
def sockA : Socket := ⟨"a"⟩

/-- A socket with id `b`. -/
def sockB : Socket := ⟨"b"⟩

/-- The device id `"dev1"`. -/
def dev1 : JVal := JVal.str "dev1"

/-- The device id `"dev2"`. -/
def dev2 : JVal := JVal.str "dev2"

/-- Socket `a` connects, logs in as `dev1` and then logs in again as `dev2`. -/
def rebindTrace : List Event :=
  [Event.connection sockA, Event.deviceLogin sockA (some ⟨dev1⟩), Event.deviceLogin sockA (some ⟨dev2⟩)]

/-- The registry after `rebindTrace`. -/
def rebindState : State :=
  { connect := ⟨[("a", sockA)]⟩
    deviceConnect := ⟨[(dev1, "a"), (dev2, "a")]⟩
    webConnect := ⟨[]⟩
    deviceSocketMap := ⟨[("a", dev2)]⟩ }

/-- After `rebindTrace`, socket `a` disconnects. -/
def staleTrace : List Event := rebindTrace ++ [Event.disconnect sockA]

/-- The registry after `staleTrace`: `dev1` still maps to the socket that is gone. -/
def staleState : State :=
  { connect := ⟨[]⟩
    deviceConnect := ⟨[(dev1, "a")]⟩
    webConnect := ⟨[]⟩
    deviceSocketMap := ⟨[]⟩ }

/-- After `staleTrace`, a socket `b` connects. -/
def staleCmdTrace : List Event := staleTrace ++ [Event.connection sockB]

/-- The registry after `staleCmdTrace`. -/
def staleCmdState : State :=
  { connect := ⟨[("b", sockB)]⟩
    deviceConnect := ⟨[(dev1, "a")]⟩
    webConnect := ⟨[]⟩
    deviceSocketMap := ⟨[]⟩ }

/-- A well-formed command for `dev1`, with an empty object as `params`. -/
def rebootCmd : DeviceCmdData := ⟨dev1, JVal.str "reboot", JVal.obj 0⟩

/-- Socket `a` connects and logs in as `dev1`; socket `b` connects. -/
def takeoverTrace : List Event :=
  [Event.connection sockA, Event.deviceLogin sockA (some ⟨dev1⟩), Event.connection sockB]

/-- The registry after `takeoverTrace`. -/
def takeoverState : State :=
  { connect := ⟨[("a", sockA), ("b", sockB)]⟩
    deviceConnect := ⟨[(dev1, "a")]⟩
    webConnect := ⟨[]⟩
    deviceSocketMap := ⟨[("a", dev1)]⟩ }

/-- After `takeoverTrace`, socket `b` logs in as `dev1` and takes the device id over. -/
def takenTrace : List Event := takeoverTrace ++ [Event.deviceLogin sockB (some ⟨dev1⟩)]

/-- The registry after `takenTrace`. -/
def takenState : State :=
  { connect := ⟨[("b", sockB)]⟩
    deviceConnect := ⟨[(dev1, "b")]⟩
    webConnect := ⟨[]⟩
    deviceSocketMap := ⟨[("b", dev1)]⟩ }

/-- Credentials with both fields non-empty. -/
def goodLogin : WebLoginData := ⟨JVal.str "admin", JVal.str "secret"⟩

/-- Socket `a` connects, logs in as a web client and then logs in as device `dev1`. -/
def dualTrace : List Event :=
  [Event.connection sockA, Event.webLogin sockA (some goodLogin), Event.deviceLogin sockA (some ⟨dev1⟩)]

/-- The registry after `dualTrace`. -/
def dualState : State :=
  { connect := ⟨[("a", sockA)]⟩
    deviceConnect := ⟨[(dev1, "a")]⟩
    webConnect := ⟨[("a", sockA)]⟩
    deviceSocketMap := ⟨[("a", dev1)]⟩ }

/-- Socket `a` connects and logs in as `dev1`; socket `b` connects and logs in as a web
client. -/
def pairTrace : List Event :=
  [Event.connection sockA, Event.deviceLogin sockA (some ⟨dev1⟩), Event.connection sockB,
    Event.webLogin sockB (some goodLogin)]

/-- The registry after `pairTrace`. -/
def pairState : State :=
  { connect := ⟨[("a", sockA), ("b", sockB)]⟩
    deviceConnect := ⟨[(dev1, "a")]⟩
    webConnect := ⟨[("b", sockB)]⟩
    deviceSocketMap := ⟨[("a", dev1)]⟩ }

/-! ## Outcomes of a sequence, device lists -/

/-- The outcome of each event of a sequence, oldest first, every event handled in the
registry that the one before it left. -/
def outcomes (s : State) : List Event → List Outcome
  | [] => []
  | ev :: evs => handle s ev :: outcomes (handle s ev).state evs

/-- The `sys:device_list` message that `sendDeviceList` builds in state `s`. -/
def deviceListOf (s : State) : OutMsg :=
  OutMsg.sysDeviceList s.deviceConnect.keys s.deviceConnect.size

/-- Whether a message is a `device:login_result`. -/
def OutMsg.isDeviceLoginResult : OutMsg → Bool
  | .deviceLoginResult _ _ _ => true
  | _ => false

/-- The registry with another web table. -/
def State.withWeb (s : State) (w : JMap String Socket) : State := { s with webConnect := w }

/-- After `rebindTrace` (socket `a` logs in as `dev1`, then as `dev2`), socket `b`
connects and logs in as a web client. -/
def rebindWebTrace : List Event :=
  rebindTrace ++ [Event.connection sockB, Event.webLogin sockB (some goodLogin)]

/-- The registry after `rebindWebTrace`. -/
def rebindWebState : State :=
  { connect := ⟨[("a", sockA), ("b", sockB)]⟩
    deviceConnect := ⟨[(dev1, "a"), (dev2, "a")]⟩
    webConnect := ⟨[("b", sockB)]⟩
    deviceSocketMap := ⟨[("a", dev2)]⟩ }

/-- The scenario of a device `a` and a web client `b`: `a` connects and logs in as `d`,
`b` connects and logs in with `creds`, `b` sends the command `cmd` with `params` for `d`,
and `a` answers with a result addressed to `b`. -/
def scenario (a b : Socket) (d : JVal) (creds : WebLoginData) (cmd params : JVal)
    (success result message : JVal) : List Event :=
  [Event.connection a, Event.deviceLogin a (some ⟨d⟩), Event.connection b, Event.webLogin b (some creds),
    Event.webDeviceCmd b (some ⟨d, cmd, params⟩),
    Event.deviceCmdResult a (some ⟨JVal.str b.id, cmd, success, result, message⟩)]

/-- The same scenario with both sockets connected before the first login. -/
def scenarioConnected (a b : Socket) (d : JVal) (creds : WebLoginData) (cmd params : JVal)
    (success result message : JVal) : List Event :=
  [Event.connection a, Event.connection b, Event.deviceLogin a (some ⟨d⟩), Event.webLogin b (some creds),
    Event.webDeviceCmd b (some ⟨d, cmd, params⟩),
    Event.deviceCmdResult a (some ⟨JVal.str b.id, cmd, success, result, message⟩)]

/-- The notice that a new socket receives on connection. -/
def connectNotice (c : Socket) : OutMsg :=
  OutMsg.sysMessage "connect" (Text.tmpl "连接成功 → " (JVal.str c.id) "")

/-- A socket with id `c`. -/
def sockC : Socket := ⟨"c"⟩

/-- After `pairTrace` (device `a` as `dev1`, web client `b`), socket `c` connects and logs
in as `dev2`. -/
def fleetTrace : List Event :=
  pairTrace ++ [Event.connection sockC, Event.deviceLogin sockC (some ⟨dev2⟩)]

/-- The registry after `fleetTrace`. -/
def fleetState : State :=
  { connect := ⟨[("a", sockA), ("b", sockB), ("c", sockC)]⟩
    deviceConnect := ⟨[(dev1, "a"), (dev2, "c")]⟩
    webConnect := ⟨[("b", sockB)]⟩
    deviceSocketMap := ⟨[("a", dev1), ("c", dev2)]⟩ }

/-- A device id without string conversion, as the parsed `{"toString": null}`. -/
def ghost : JVal := JVal.unprintable 0

/-- Socket `a` connects and logs in under the device id `ghost`. -/
def ghostTrace : List Event :=
  [Event.connection sockA, Event.deviceLogin sockA (some ⟨ghost⟩)]

/-- The registry after `ghostTrace`: the login has set both tables before it raised. -/
def ghostState : State :=
  { connect := ⟨[("a", sockA)]⟩
    deviceConnect := ⟨[(ghost, "a")]⟩
    webConnect := ⟨[]⟩
    deviceSocketMap := ⟨[("a", ghost)]⟩ }

/-- Socket `a` connects, logs in as `dev1` and then under `ghost`; socket `b` connects. -/
def rebindGhostTrace : List Event :=
  [Event.connection sockA, Event.deviceLogin sockA (some ⟨dev1⟩),
    Event.deviceLogin sockA (some ⟨ghost⟩), Event.connection sockB]

/-- The registry after `rebindGhostTrace`. -/
def rebindGhostState : State :=
  { connect := ⟨[("a", sockA), ("b", sockB)]⟩
    deviceConnect := ⟨[(dev1, "a"), (ghost, "a")]⟩
    webConnect := ⟨[]⟩
    deviceSocketMap := ⟨[("a", ghost)]⟩ }

/-- Socket `b` connects and logs in as a web client; socket `a` connects. -/
def webFirstTrace : List Event :=
  [Event.connection sockB, Event.webLogin sockB (some goodLogin), Event.connection sockA]

/-- The registry after `webFirstTrace`. -/
def webFirstState : State :=
  { connect := ⟨[("b", sockB), ("a", sockA)]⟩
    deviceConnect := ⟨[]⟩
    webConnect := ⟨[("b", sockB)]⟩
    deviceSocketMap := ⟨[]⟩ }

/-! ## Invariants -/

/-- What holds of the registry in every reachable state. -/
structure Inv (s : State) : Prop where
  nodupConnect : s.connect.keys.Nodup
  nodupDevice : s.deviceConnect.keys.Nodup
  nodupWeb : s.webConnect.keys.Nodup
  nodupInverse : s.deviceSocketMap.keys.Nodup
  connectId : ∀ k v, s.connect.get k = some v → v.id = k
  connectNonempty : ∀ k v, s.connect.get k = some v → k ≠ ""
  webLive : ∀ k v, s.webConnect.get k = some v → s.connect.get k = some v
  inverseLive : ∀ c d, s.deviceSocketMap.get c = some d → s.connect.has c = true
  back : ∀ c d, s.deviceSocketMap.get c = some d → s.deviceConnect.get d = some c
  truthyKeys : ∀ d c, s.deviceConnect.get d = some c → d.truthy = true

/-- Every entry of the device-identity table has its inverse entry. -/
def Fwd (s : State) : Prop :=
  ∀ d c, s.deviceConnect.get d = some c → s.deviceSocketMap.get c = some d

/-- No socket id is a key of both the inverse table and the web table. -/
def Disj (s : State) : Prop :=
  ∀ c d, s.deviceSocketMap.get c = some d → s.webConnect.get c = none

end Broker

namespace Broker

/-! ## Facts about maps -/

namespace JMap

variable {K V : Type} [DecidableEq K]

theorem getL_setL (m : List (K × V)) (k k' : K) (v : V) :
    getL (setL m k v) k' = if k = k' then some v else getL m k' := by
  induction m with
  | nil => simp [setL, getL]
  | cons p m ih =>
    obtain ⟨a, b⟩ := p
    by_cases h : a = k
    · subst h
      by_cases h2 : a = k' <;> simp [setL, getL, h2]
    · by_cases h2 : a = k'
      · subst h2
        have h3 : ¬ k = a := fun e => h e.symm
        simp [setL, getL, h, h3]
      · simp [setL, getL, h, h2, ih]

theorem getL_delL (m : List (K × V)) (k k' : K) :
    getL (delL m k) k' = if k = k' then none else getL m k' := by
  induction m with
  | nil => simp [delL, getL]
  | cons p m ih =>
    obtain ⟨a, b⟩ := p
    by_cases h : a = k
    · subst h
      by_cases h2 : a = k'
      · subst h2
        simpa [delL] using ih
      · simp [delL, getL, h2, ih]
    · by_cases h2 : a = k'
      · subst h2
        have h3 : ¬ k = a := fun e => h e.symm
        simp [delL, getL, h, h3]
      · simp [delL, getL, h, h2, ih]

@[simp] theorem get_empty (k : K) : (empty : JMap K V).get k = none := rfl

theorem get_set (m : JMap K V) (k k' : K) (v : V) :
    (m.set k v).get k' = if k = k' then some v else m.get k' :=
  getL_setL m.entries k k' v

theorem get_delete (m : JMap K V) (k k' : K) :
    (m.delete k).get k' = if k = k' then none else m.get k' :=
  getL_delL m.entries k k'

theorem has_eq_true_iff (m : JMap K V) (k : K) : m.has k = true ↔ ∃ v, m.get k = some v := by
  unfold has
  cases m.get k <;> simp

theorem has_eq_false_iff (m : JMap K V) (k : K) : m.has k = false ↔ m.get k = none := by
  unfold has
  cases m.get k <;> simp

theorem getL_eq_none_iff (m : List (K × V)) (k : K) :
    getL m k = none ↔ ∀ p ∈ m, p.1 ≠ k := by
  induction m with
  | nil => simp [getL]
  | cons p m ih =>
    obtain ⟨a, b⟩ := p
    by_cases h : a = k <;> simp [getL, h, ih]

theorem mem_of_getL (m : List (K × V)) (k : K) (v : V) (h : getL m k = some v) :
    (k, v) ∈ m := by
  induction m with
  | nil => simp [getL] at h
  | cons p m ih =>
    obtain ⟨a, b⟩ := p
    by_cases h2 : a = k
    · subst h2
      simp [getL] at h
      simp [h]
    · simp [getL, h2] at h
      exact List.mem_cons_of_mem _ (ih h)

theorem getL_of_mem (m : List (K × V)) (hn : (m.map Prod.fst).Nodup) (k : K) (v : V)
    (h : (k, v) ∈ m) : getL m k = some v := by
  induction m with
  | nil => simp at h
  | cons p m ih =>
    obtain ⟨a, b⟩ := p
    simp only [List.map_cons, List.nodup_cons] at hn
    rcases List.mem_cons.mp h with h1 | h1
    · cases h1
      simp [getL]
    · have hk : k ∈ m.map Prod.fst := List.mem_map.mpr ⟨(k, v), h1, rfl⟩
      have hne : ¬ a = k := fun e => hn.1 (e ▸ hk)
      simp [getL, hne, ih hn.2 h1]

theorem delL_of_getL_none (m : List (K × V)) (k : K) (h : getL m k = none) :
    delL m k = m := by
  induction m with
  | nil => rfl
  | cons p m ih =>
    obtain ⟨a, b⟩ := p
    by_cases h2 : a = k
    · simp [getL, h2] at h
    · simp only [getL, h2, if_false] at h
      simp [delL, h2, ih h]

theorem delete_of_get_none (m : JMap K V) (k : K) (h : m.get k = none) : m.delete k = m := by
  cases m with
  | mk es => simp only [delete, delL_of_getL_none es k h]

theorem delL_sublist (m : List (K × V)) (k : K) : List.Sublist (delL m k) m := by
  induction m with
  | nil => simp [delL]
  | cons p m ih =>
    obtain ⟨a, b⟩ := p
    by_cases h2 : a = k
    · simp only [delL, h2, if_true]
      exact List.Sublist.cons _ (by simpa [h2] using ih)
    · simp only [delL, h2, if_false]
      exact List.Sublist.cons₂ _ ih

theorem mem_delL (m : List (K × V)) (k : K) (p : K × V) :
    p ∈ delL m k ↔ p ∈ m ∧ p.1 ≠ k := by
  induction m with
  | nil => simp [delL]
  | cons q m ih =>
    obtain ⟨a, b⟩ := q
    by_cases h2 : a = k
    · subst h2
      simp only [delL, if_true, ih, List.mem_cons]
      constructor
      · rintro ⟨h, hne⟩
        exact ⟨Or.inr h, hne⟩
      · rintro ⟨h | h, hne⟩
        · exact absurd (by rw [h]) hne
        · exact ⟨h, hne⟩
    · simp only [delL, h2, if_false, List.mem_cons, ih]
      constructor
      · rintro (h | ⟨h, hne⟩)
        · exact ⟨Or.inl h, by rw [h]; exact h2⟩
        · exact ⟨Or.inr h, hne⟩
      · rintro ⟨h | h, hne⟩
        · exact Or.inl h
        · exact Or.inr ⟨h, hne⟩

theorem keys_setL (m : List (K × V)) (k : K) (v : V) :
    (setL m k v).map Prod.fst =
      if (getL m k).isSome then m.map Prod.fst else m.map Prod.fst ++ [k] := by
  induction m with
  | nil => simp [setL, getL]
  | cons p m ih =>
    obtain ⟨a, b⟩ := p
    by_cases h : a = k
    · subst h
      simp [setL, getL]
    · simp only [setL, getL, h, if_false, List.map_cons, ih]
      split <;> simp

theorem nodup_keys_set (m : JMap K V) (k : K) (v : V) (h : m.keys.Nodup) :
    (m.set k v).keys.Nodup := by
  unfold keys set at *
  simp only
  rw [keys_setL]
  split
  · exact h
  · rename_i hn
    have hn2 : getL m.entries k = none := by
      cases hg : getL m.entries k <;> simp [hg] at hn ⊢
    have h2 := (getL_eq_none_iff m.entries k).mp hn2
    refine List.Nodup.append h (List.nodup_singleton k) ?_
    intro x hx hx2
    simp only [List.mem_singleton] at hx2
    subst hx2
    obtain ⟨p, hp, hpe⟩ := List.mem_map.mp hx
    exact h2 p hp hpe

theorem nodup_keys_delete (m : JMap K V) (k : K) (h : m.keys.Nodup) :
    (m.delete k).keys.Nodup := by
  unfold keys delete at *
  exact List.Nodup.sublist (List.Sublist.map _ (delL_sublist _ _)) h

end JMap

/-! ## The registry after each handler -/

theorem dropConnection_eq (s : State) (socket : Socket) :
    dropConnection s socket =
      { s with connect := s.connect.delete socket.id
               webConnect := s.webConnect.delete socket.id } := by
  obtain ⟨c, d, w, i⟩ := s
  unfold dropConnection
  simp only
  by_cases hw : w.has socket.id = true
  · by_cases hc : c.has socket.id = true
    · simp [hw, hc]
    · have hc2 : c.get socket.id = none :=
        (JMap.has_eq_false_iff c socket.id).mp (by simpa using hc)
      simp [hw, hc, JMap.delete_of_get_none c socket.id hc2]
  · have hw2 : w.get socket.id = none :=
      (JMap.has_eq_false_iff w socket.id).mp (by simpa using hw)
    by_cases hc : c.has socket.id = true
    · simp [hw, hc, JMap.delete_of_get_none w socket.id hw2]
    · have hc2 : c.get socket.id = none :=
        (JMap.has_eq_false_iff c socket.id).mp (by simpa using hc)
      simp [hw, hc, JMap.delete_of_get_none w socket.id hw2,
        JMap.delete_of_get_none c socket.id hc2]

/-- The three ways the `disconnect` handler ends: the socket holds no device id; it holds
a device id with a string conversion; it holds one without, and the handler raises after
the two device deletes. -/
theorem onDisconnect_cases (s : State) (socket : Socket) :
    (s.deviceSocketMap.get socket.id = none ∧
      onDisconnect s socket =
        { state := dropConnection s socket, out := [], raised := false }) ∨
    (∃ d, s.deviceSocketMap.get socket.id = some d ∧ d.printable = true ∧
      onDisconnect s socket =
        { state := dropConnection (dropDevice s socket d) socket
          out := broadcastDeviceListUpdate (dropDevice s socket d)
          raised := false }) ∨
    (∃ d, s.deviceSocketMap.get socket.id = some d ∧ d.printable = false ∧
      onDisconnect s socket = raise (dropDevice s socket d) []) := by
  unfold onDisconnect disconnectDevice
  cases hg : s.deviceSocketMap.get socket.id with
  | none => exact Or.inl ⟨rfl, by simp⟩
  | some d =>
    cases hp : d.printable with
    | true => exact Or.inr (Or.inl ⟨d, rfl, hp, by simp [hp]⟩)
    | false => exact Or.inr (Or.inr ⟨d, rfl, hp, by simp [hp, raise]⟩)

theorem onDisconnect_deviceConnect (s : State) (socket : Socket) :
    (onDisconnect s socket).state.deviceConnect =
      match s.deviceSocketMap.get socket.id with
      | some d => s.deviceConnect.delete d
      | none => s.deviceConnect := by
  rcases onDisconnect_cases s socket with ⟨hg, e⟩ | ⟨d, hg, _, e⟩ | ⟨d, hg, _, e⟩
  · rw [e, hg, dropConnection_eq]
  · rw [e, hg, dropConnection_eq]; rfl
  · rw [e, hg]; rfl

theorem onDisconnect_deviceSocketMap (s : State) (socket : Socket) :
    (onDisconnect s socket).state.deviceSocketMap = s.deviceSocketMap.delete socket.id := by
  rcases onDisconnect_cases s socket with ⟨hg, e⟩ | ⟨d, hg, _, e⟩ | ⟨d, hg, _, e⟩
  · rw [e, dropConnection_eq]
    exact (JMap.delete_of_get_none _ _ hg).symm
  · rw [e, dropConnection_eq]; rfl
  · rw [e]; rfl

/-- The `disconnect` handler either completes and the socket has left `connect` and
`webConnect`, or raises and both tables are as before. -/
theorem onDisconnect_tables (s : State) (socket : Socket) :
    ((onDisconnect s socket).raised = false ∧
      (onDisconnect s socket).state.connect = s.connect.delete socket.id ∧
      (onDisconnect s socket).state.webConnect = s.webConnect.delete socket.id) ∨
    ((onDisconnect s socket).raised = true ∧
      (onDisconnect s socket).state.connect = s.connect ∧
      (onDisconnect s socket).state.webConnect = s.webConnect) := by
  rcases onDisconnect_cases s socket with ⟨hg, e⟩ | ⟨d, hg, _, e⟩ | ⟨d, hg, _, e⟩
  · rw [e, dropConnection_eq]; exact Or.inl ⟨rfl, rfl, rfl⟩
  · rw [e, dropConnection_eq]; exact Or.inl ⟨rfl, rfl, rfl⟩
  · rw [e]; exact Or.inr ⟨rfl, rfl, rfl⟩

/-- The `disconnect` handler of a socket that holds no device id, or one with a string
conversion, completes, and the registry has the socket removed from all tables. -/
theorem onDisconnect_ok (s : State) (socket : Socket)
    (hp : ∀ d, s.deviceSocketMap.get socket.id = some d → d.printable = true) :
    (onDisconnect s socket).raised = false ∧
      (onDisconnect s socket).state =
        { connect := s.connect.delete socket.id
          deviceConnect :=
            match s.deviceSocketMap.get socket.id with
            | some deviceId => s.deviceConnect.delete deviceId
            | none => s.deviceConnect
          webConnect := s.webConnect.delete socket.id
          deviceSocketMap := s.deviceSocketMap.delete socket.id } := by
  rcases onDisconnect_cases s socket with ⟨hg, e⟩ | ⟨d, hg, _, e⟩ | ⟨d, hg, hd, e⟩
  · rw [e, hg, dropConnection_eq]
    simp [JMap.delete_of_get_none _ _ hg]
  · rw [e, hg, dropConnection_eq]
    simp [dropDevice]
  · rw [hp d hg] at hd
    cases hd

/-! ## Invariants of the reachable states -/

theorem inv_empty : Inv State.empty := by
  constructor <;> simp [State.empty, JMap.empty, JMap.keys, JMap.get, JMap.getL]

/-- The invariant passes to a registry that differs by the two device deletes for the
socket id `id` and, possibly, by the deletes of `id` from `connect` and `webConnect`. -/
theorem inv_of_cleanup {s t : State} (h : Inv s) (id : String)
    (hd : t.deviceConnect =
      match s.deviceSocketMap.get id with
      | some d => s.deviceConnect.delete d
      | none => s.deviceConnect)
    (hm : t.deviceSocketMap = s.deviceSocketMap.delete id)
    (hc : (t.connect = s.connect.delete id ∧ t.webConnect = s.webConnect.delete id) ∨
      (t.connect = s.connect ∧ t.webConnect = s.webConnect)) : Inv t := by
  have hback : ∀ c d, t.deviceSocketMap.get c = some d → t.deviceConnect.get d = some c := by
    intro c d hcd
    rw [hm] at hcd
    simp only [JMap.get_delete] at hcd
    split at hcd
    · simp at hcd
    · rename_i hne
      have hb := h.back c d hcd
      rw [hd]
      cases hg : s.deviceSocketMap.get id with
      | none => exact hb
      | some d0 =>
        simp only [JMap.get_delete]
        have hb0 := h.back id d0 hg
        have hne2 : ¬ d0 = d := by
          intro e
          subst e
          rw [hb0] at hb
          exact hne (Option.some.inj hb)
        simp only [hne2, if_false]
        exact hb
  have htruthy : ∀ d c, t.deviceConnect.get d = some c → d.truthy = true := by
    intro d c hdc
    rw [hd] at hdc
    cases hg : s.deviceSocketMap.get id with
    | none =>
      rw [hg] at hdc
      exact h.truthyKeys d c hdc
    | some d0 =>
      rw [hg] at hdc
      simp only [JMap.get_delete] at hdc
      split at hdc
      · simp at hdc
      · exact h.truthyKeys d c hdc
  have hnd : t.deviceConnect.keys.Nodup := by
    rw [hd]
    cases s.deviceSocketMap.get id with
    | none => exact h.nodupDevice
    | some d => exact JMap.nodup_keys_delete _ _ h.nodupDevice
  have hni : t.deviceSocketMap.keys.Nodup := by
    rw [hm]; exact JMap.nodup_keys_delete _ _ h.nodupInverse
  rcases hc with ⟨hc, hw⟩ | ⟨hc, hw⟩
  · refine ⟨?_, hnd, ?_, hni, ?_, ?_, ?_, ?_, hback, htruthy⟩
    · rw [hc]; exact JMap.nodup_keys_delete _ _ h.nodupConnect
    · rw [hw]; exact JMap.nodup_keys_delete _ _ h.nodupWeb
    · intro k v hk
      rw [hc] at hk
      simp only [JMap.get_delete] at hk
      split at hk
      · simp at hk
      · exact h.connectId k v hk
    · intro k v hk
      rw [hc] at hk
      simp only [JMap.get_delete] at hk
      split at hk
      · simp at hk
      · exact h.connectNonempty k v hk
    · intro k v hk
      rw [hw] at hk
      rw [hc]
      simp only [JMap.get_delete] at hk ⊢
      split at hk
      · simp at hk
      · rename_i hne
        simp only [hne, if_false]
        exact h.webLive k v hk
    · intro c d hcd
      rw [hm] at hcd
      simp only [JMap.get_delete] at hcd
      split at hcd
      · simp at hcd
      · rename_i hne
        have := h.inverseLive c d hcd
        rw [hc]
        simp only [JMap.has, JMap.get_delete, hne, if_false] at this ⊢
        exact this
  · refine ⟨?_, hnd, ?_, hni, ?_, ?_, ?_, ?_, hback, htruthy⟩
    · rw [hc]; exact h.nodupConnect
    · rw [hw]; exact h.nodupWeb
    · rw [hc]; exact h.connectId
    · rw [hc]; exact h.connectNonempty
    · rw [hc, hw]; exact h.webLive
    · intro c d hcd
      rw [hm] at hcd
      simp only [JMap.get_delete] at hcd
      split at hcd
      · simp at hcd
      · rw [hc]; exact h.inverseLive c d hcd

theorem inv_onDisconnect {s : State} (h : Inv s) (socket : Socket) :
    Inv (onDisconnect s socket).state := by
  refine inv_of_cleanup h socket.id (onDisconnect_deviceConnect s socket)
    (onDisconnect_deviceSocketMap s socket) ?_
  rcases onDisconnect_tables s socket with ⟨_, hc, hw⟩ | ⟨_, hc, hw⟩
  · exact Or.inl ⟨hc, hw⟩
  · exact Or.inr ⟨hc, hw⟩

theorem evictExisting_cases (s : State) (socket : Socket) (d : JVal) :
    (s.deviceConnect.get d = none ∧
      evictExisting s socket d = { state := s, out := [], raised := false }) ∨
    (s.deviceConnect.get d = some socket.id ∧
      evictExisting s socket d = { state := s, out := [], raised := false }) ∨
    (∃ e, s.deviceConnect.get d = some e ∧ e ≠ socket.id ∧ s.connect.get e = none ∧
      evictExisting s socket d = { state := s, out := [], raised := false }) ∨
    (∃ e existing, s.deviceConnect.get d = some e ∧ e ≠ socket.id ∧
      s.connect.get e = some existing ∧
      evictExisting s socket d =
        { state := (onDisconnect s existing).state
          out := Action.emit existing.id (OutMsg.sysMessage "error" evictionText)
            :: Action.close existing.id :: (onDisconnect s existing).out
          raised := (onDisconnect s existing).raised }) := by
  unfold evictExisting
  cases hd : s.deviceConnect.get d with
  | none => exact Or.inl ⟨rfl, rfl⟩
  | some e =>
    by_cases he : e = socket.id
    · subst he
      exact Or.inr (Or.inl ⟨rfl, by simp⟩)
    · cases hc : s.connect.get e with
      | none => exact Or.inr (Or.inr (Or.inl ⟨e, rfl, he, hc, by simp [he, hc]⟩))
      | some existing =>
        exact Or.inr (Or.inr (Or.inr ⟨e, existing, rfl, he, hc, by simp [he, hc]⟩))

theorem inv_evictExisting {s : State} (h : Inv s) (socket : Socket) (d : JVal) :
    Inv (evictExisting s socket d).state := by
  rcases evictExisting_cases s socket d with ⟨_, e⟩ | ⟨_, e⟩ | ⟨_, _, _, _, e⟩ |
    ⟨_, existing, _, _, _, e⟩
  · rw [e]; exact h
  · rw [e]; exact h
  · rw [e]; exact h
  · rw [e]; exact inv_onDisconnect h existing

/-- After the eviction block no socket other than the one logging in holds the device id
in the inverse table. -/
theorem evictExisting_noHolder {s : State} (h : Inv s) (socket : Socket) (d : JVal) :
    ∀ c, (evictExisting s socket d).state.deviceSocketMap.get c = some d → c = socket.id := by
  intro c hc
  rcases evictExisting_cases s socket d with ⟨hd, e⟩ | ⟨hd, e⟩ | ⟨e0, hd, hne, hcn, e⟩ |
    ⟨e0, existing, hd, hne, hcn, e⟩
  · rw [e] at hc
    have := h.back c d hc
    rw [hd] at this
    cases this
  · rw [e] at hc
    have := h.back c d hc
    rw [hd] at this
    exact (Option.some.inj this).symm
  · rw [e] at hc
    have hb := h.back c d hc
    rw [hd] at hb
    have hce : e0 = c := Option.some.inj hb
    subst hce
    have hl := h.inverseLive e0 d hc
    rw [JMap.has, hcn] at hl
    cases hl
  · rw [e] at hc
    simp only at hc
    rw [onDisconnect_deviceSocketMap] at hc
    simp only [JMap.get_delete] at hc
    have hid := h.connectId e0 existing hcn
    split at hc
    · cases hc
    · rename_i hne2
      have hb := h.back c d hc
      rw [hd] at hb
      have hce : e0 = c := Option.some.inj hb
      exact absurd (hid.trans hce) hne2

/-- The eviction block leaves the entries of the socket that logs in as they are. -/
theorem evictExisting_keeps {s : State} (h : Inv s) (socket : Socket) (d : JVal) :
    (evictExisting s socket d).state.connect.get socket.id = s.connect.get socket.id ∧
    (evictExisting s socket d).state.webConnect.get socket.id = s.webConnect.get socket.id ∧
    (evictExisting s socket d).state.deviceSocketMap.get socket.id =
      s.deviceSocketMap.get socket.id := by
  rcases evictExisting_cases s socket d with ⟨_, e⟩ | ⟨_, e⟩ | ⟨_, _, _, _, e⟩ |
    ⟨e0, existing, hd, hne, hcn, e⟩
  · rw [e]; exact ⟨rfl, rfl, rfl⟩
  · rw [e]; exact ⟨rfl, rfl, rfl⟩
  · rw [e]; exact ⟨rfl, rfl, rfl⟩
  · rw [e]
    simp only
    have hid := h.connectId e0 existing hcn
    have hne2 : ¬ existing.id = socket.id := by rw [hid]; exact hne
    rw [onDisconnect_deviceSocketMap]
    rcases onDisconnect_tables s existing with ⟨_, hc, hw⟩ | ⟨_, hc, hw⟩
    · rw [hc, hw]
      simp [JMap.get_delete, hne2]
    · rw [hc, hw]
      simp [JMap.get_delete, hne2]

theorem inv_registerDevice {s : State} (h : Inv s) (socket : Socket) (d : JVal)
    (hlive : s.connect.get socket.id = some socket) (ht : d.truthy = true)
    (hno : ∀ c, s.deviceSocketMap.get c = some d → c = socket.id) :
    Inv (registerDevice s socket d) := by
  unfold registerDevice
  constructor
  · exact h.nodupConnect
  · exact JMap.nodup_keys_set _ _ _ h.nodupDevice
  · exact h.nodupWeb
  · exact JMap.nodup_keys_set _ _ _ h.nodupInverse
  · exact h.connectId
  · exact h.connectNonempty
  · exact h.webLive
  · intro c d1 hc
    simp only [JMap.get_set] at hc
    split at hc
    · rename_i he
      subst he
      simp [JMap.has, hlive]
    · exact h.inverseLive c d1 hc
  · intro c d1 hc
    simp only [JMap.get_set] at hc ⊢
    split at hc
    · rename_i he
      subst he
      cases hc
      simp
    · rename_i hne
      have hne2 : ¬ d = d1 := by
        intro e
        subst e
        exact hne (hno c hc).symm
      simp only [hne2, if_false]
      exact h.back c d1 hc
  · intro d1 c hd
    simp only [JMap.get_set] at hd
    split at hd
    · rename_i he
      subst he
      exact ht
    · exact h.truthyKeys d1 c hd

theorem inv_onConnection {s : State} (h : Inv s) (socket : Socket)
    (hen : enabled s (Event.connection socket) = true) : Inv (onConnection s socket).state := by
  simp only [enabled, Bool.and_eq_true, bne_iff_ne, ne_eq, Bool.not_eq_true'] at hen
  obtain ⟨hne, hfresh⟩ := hen
  have hnone : s.connect.get socket.id = none := (JMap.has_eq_false_iff _ _).mp hfresh
  unfold onConnection
  constructor
  · exact JMap.nodup_keys_set _ _ _ h.nodupConnect
  · exact h.nodupDevice
  · exact h.nodupWeb
  · exact h.nodupInverse
  · intro k v hk
    simp only [JMap.get_set] at hk
    split at hk
    · rename_i he
      cases hk
      exact he
    · exact h.connectId k v hk
  · intro k v hk
    simp only [JMap.get_set] at hk
    split at hk
    · rename_i he
      rw [← he]
      exact hne
    · exact h.connectNonempty k v hk
  · intro k v hk
    have hl := h.webLive k v hk
    simp only [JMap.get_set]
    split
    · rename_i he
      rw [← he, hnone] at hl
      cases hl
    · exact hl
  · intro c d hc
    have hl := h.inverseLive c d hc
    simp only [JMap.has, JMap.get_set] at hl ⊢
    split
    · rfl
    · exact hl
  · exact h.back
  · exact h.truthyKeys

theorem inv_onWebLogin {s : State} (h : Inv s) (socket : Socket)
    (payload : Option WebLoginData) (hlive : s.connect.get socket.id = some socket) :
    Inv (onWebLogin s socket payload).state := by
  unfold onWebLogin
  cases payload with
  | none => exact h
  | some data =>
    simp only
    split
    · constructor
      · exact h.nodupConnect
      · exact h.nodupDevice
      · exact JMap.nodup_keys_set _ _ _ h.nodupWeb
      · exact h.nodupInverse
      · exact h.connectId
      · exact h.connectNonempty
      · intro k v hk
        simp only [JMap.get_set] at hk
        split at hk
        · rename_i he
          subst he
          cases hk
          exact hlive
        · exact h.webLive k v hk
      · exact h.inverseLive
      · exact h.back
      · exact h.truthyKeys
    · exact h

/-- The registry after a `device:login` with a payload: unchanged for a falsy device id,
what the eviction left when it raised, else the registration on what the eviction left. -/
theorem onDeviceLogin_state (s : State) (socket : Socket) (data : DeviceLoginData) :
    (onDeviceLogin s socket (some data)).state =
      if data.deviceId.truthy then
        if (evictExisting s socket data.deviceId).raised then
          (evictExisting s socket data.deviceId).state
        else registerDevice (evictExisting s socket data.deviceId).state socket data.deviceId
      else s := by
  unfold onDeviceLogin
  simp only
  cases data.deviceId.truthy with
  | false => simp
  | true =>
    simp only [Bool.not_true, Bool.false_eq_true, if_false, if_true]
    cases (evictExisting s socket data.deviceId).raised with
    | true => simp
    | false =>
      simp only [Bool.false_eq_true, if_false]
      cases data.deviceId.printable <;> simp [raise]

theorem inv_onDeviceLogin {s : State} (h : Inv s) (socket : Socket)
    (payload : Option DeviceLoginData) (hlive : s.connect.get socket.id = some socket) :
    Inv (onDeviceLogin s socket payload).state := by
  cases payload with
  | none => exact h
  | some data =>
    rw [onDeviceLogin_state]
    split
    · rename_i ht
      split
      · exact inv_evictExisting h socket data.deviceId
      · refine inv_registerDevice (inv_evictExisting h socket data.deviceId) socket
          data.deviceId ?_ ht (evictExisting_noHolder h socket data.deviceId)
        rw [(evictExisting_keeps h socket data.deviceId).1]
        exact hlive
    · exact h

theorem onWebDeviceCmd_state (s : State) (socket : Socket) (payload : Option DeviceCmdData) :
    (onWebDeviceCmd s socket payload).state = s := by
  unfold onWebDeviceCmd
  cases payload with
  | none => rfl
  | some data =>
    simp only
    split
    · rfl
    · split
      · split <;> rfl
      · split <;> rfl

theorem onDeviceCmdResult_state (s : State) (socket : Socket)
    (payload : Option CmdResultData) : (onDeviceCmdResult s socket payload).state = s := by
  unfold onDeviceCmdResult
  cases payload with
  | none => rfl
  | some data =>
    simp only
    split
    · split <;> rfl
    · rfl

/-- An event other than a new connection is delivered only for a live socket. -/
theorem enabled_live {s : State} {ev : Event} (hen : enabled s ev = true)
    (hev : ∀ c, ev ≠ Event.connection c) :
    s.connect.get ev.socket.id = some ev.socket := by
  cases ev with
  | connection c => exact absurd rfl (hev c)
  | _ => simpa [enabled] using hen

theorem inv_handle {s : State} (h : Inv s) (ev : Event) (hen : enabled s ev = true) :
    Inv (handle s ev).state := by
  cases ev with
  | connection c => exact inv_onConnection h c hen
  | ping c => exact h
  | disconnect c => exact inv_onDisconnect h c
  | webLogin c data =>
    exact inv_onWebLogin h c data (enabled_live hen (by intro c h; cases h))
  | webGetDeviceList c => exact h
  | webDeviceCmd c data =>
    show Inv (onWebDeviceCmd s c data).state
    rw [onWebDeviceCmd_state]; exact h
  | deviceLogin c data =>
    exact inv_onDeviceLogin h c data (enabled_live hen (by intro c h; cases h))
  | deviceCmdResult c data =>
    show Inv (onDeviceCmdResult s c data).state
    rw [onDeviceCmdResult_state]; exact h

theorem reachableBy_weaken {ok ok2 : State → Event → Bool} {s : State}
    (hw : ∀ s ev, ok s ev = true → ok2 s ev = true) (h : ReachableBy ok s) :
    ReachableBy ok2 s := by
  induction h with
  | init => exact ReachableBy.init
  | step ev _ hen hok ih => exact ReachableBy.step ev ih hen (hw _ _ hok)

theorem reachableBy_mono {ok : State → Event → Bool} {s : State} (h : ReachableBy ok s) :
    Reachable s := reachableBy_weaken (fun _ _ _ => rfl) h

theorem reachable_inv {s : State} (h : Reachable s) : Inv s := by
  induction h with
  | init => exact inv_empty
  | step ev _ hen _ ih => exact inv_handle ih ev hen

theorem reachableBy_inv {ok : State → Event → Bool} {s : State} (h : ReachableBy ok s) :
    Inv s := reachable_inv (reachableBy_mono h)

/-- A state produced by `runBy` from a reachable state is reachable. -/
theorem reachableBy_of_runBy {ok : State → Event → Bool} :
    ∀ (evs : List Event) (s t : State), ReachableBy ok s →
      runBy ok s evs = some t → ReachableBy ok t := by
  intro evs
  induction evs with
  | nil =>
    intro s t hs hr
    simp only [runBy, Option.some.injEq] at hr
    subst hr
    exact hs
  | cons ev evs ih =>
    intro s t hs hr
    simp only [runBy] at hr
    split at hr
    · rename_i hen
      simp only [Bool.and_eq_true] at hen
      exact ih _ t (ReachableBy.step ev hs hen.1 hen.2) hr
    · cases hr

theorem reachable_of_run (evs : List Event) (t : State)
    (h : run State.empty evs = some t) : Reachable t :=
  reachableBy_of_runBy evs State.empty t ReachableBy.init h

/-- Induction over the reachable states of a discipline, with the general invariant at
hand in the step. -/
theorem reachableBy_induct {ok : State → Event → Bool} {P : State → Prop}
    (h0 : P State.empty)
    (hstep : ∀ s ev, Inv s → P s → enabled s ev = true → ok s ev = true →
      P (handle s ev).state) {s : State} (h : ReachableBy ok s) : P s := by
  induction h with
  | init => exact h0
  | step ev hr hen hok ih => exact hstep _ ev (reachableBy_inv hr) ih hen hok

/-! ## Keys and values as lists -/

theorem JMap.mem_keys_iff {K V : Type} [DecidableEq K] (m : JMap K V) (k : K) :
    k ∈ m.keys ↔ ∃ v, m.get k = some v := by
  constructor
  · intro hk
    cases hg : m.get k with
    | some v => exact ⟨v, rfl⟩
    | none =>
      obtain ⟨p, hp, hpe⟩ := List.mem_map.mp hk
      exact absurd hpe ((JMap.getL_eq_none_iff m.entries k).mp hg p hp)
  · rintro ⟨v, hv⟩
    exact List.mem_map.mpr ⟨(k, v), JMap.mem_of_getL m.entries k v hv, rfl⟩

theorem JMap.not_mem_keys_iff {K V : Type} [DecidableEq K] (m : JMap K V) (k : K) :
    k ∉ m.keys ↔ m.get k = none := by
  rw [JMap.mem_keys_iff]
  cases m.get k <;> simp

theorem JMap.mem_values_iff {K V : Type} [DecidableEq K] (m : JMap K V)
    (hn : m.keys.Nodup) (v : V) : v ∈ m.values ↔ ∃ k, m.get k = some v := by
  constructor
  · intro hv
    obtain ⟨p, hp, hpe⟩ := List.mem_map.mp hv
    obtain ⟨a, b⟩ := p
    simp only at hpe
    subst hpe
    exact ⟨a, JMap.getL_of_mem m.entries hn a b hp⟩
  · rintro ⟨k, hk⟩
    exact List.mem_map.mpr ⟨(k, v), JMap.mem_of_getL m.entries k v hk, rfl⟩

/-! ## Invariants that need a discipline -/

theorem fwd_onDisconnect {s : State} (h : Fwd s) (socket : Socket) :
    Fwd (onDisconnect s socket).state := by
  intro d c hd
  rw [onDisconnect_deviceConnect] at hd
  rw [onDisconnect_deviceSocketMap]
  cases hg : s.deviceSocketMap.get socket.id with
  | none =>
    rw [hg] at hd
    have h1 := h d c hd
    have hne : ¬ socket.id = c := by
      intro e
      rw [← e, hg] at h1
      cases h1
    simp only [JMap.get_delete, hne, if_false]
    exact h1
  | some d0 =>
    rw [hg] at hd
    simp only [JMap.get_delete] at hd
    split at hd
    · cases hd
    · rename_i hne0
      have h1 := h d c hd
      have hne : ¬ socket.id = c := by
        intro e
        rw [← e, hg] at h1
        exact hne0 (Option.some.inj h1)
      simp only [JMap.get_delete, hne, if_false]
      exact h1

theorem fwd_evictExisting {s : State} (h : Fwd s) (socket : Socket) (d : JVal) :
    Fwd (evictExisting s socket d).state := by
  rcases evictExisting_cases s socket d with ⟨_, e⟩ | ⟨_, e⟩ | ⟨_, _, _, _, e⟩ |
    ⟨_, existing, _, _, _, e⟩
  · rw [e]; exact h
  · rw [e]; exact h
  · rw [e]; exact h
  · rw [e]; exact fwd_onDisconnect h existing

theorem fwd_handle {s : State} (hi : Inv s) (h : Fwd s) (ev : Event)
    (hok : noRebind s ev = true) : Fwd (handle s ev).state := by
  cases ev with
  | connection c => exact h
  | ping c => exact h
  | disconnect c => exact fwd_onDisconnect h c
  | webLogin c payload =>
    show Fwd (onWebLogin s c payload).state
    unfold onWebLogin
    cases payload with
    | none => exact h
    | some data =>
      simp only
      split
      · exact h
      · exact h
  | webGetDeviceList c => exact h
  | webDeviceCmd c payload =>
    show Fwd (onWebDeviceCmd s c payload).state
    rw [onWebDeviceCmd_state]; exact h
  | deviceLogin c payload =>
    show Fwd (onDeviceLogin s c payload).state
    cases payload with
    | none => exact h
    | some data =>
      rw [onDeviceLogin_state]
      split
      · rename_i ht
        have h1 := fwd_evictExisting h c data.deviceId
        split
        · exact h1
        · have hk := (evictExisting_keeps hi c data.deviceId).2.2
          simp only [noRebind, ht, Bool.not_true, Bool.false_or, Bool.or_eq_true,
            decide_eq_true_eq] at hok
          intro d1 c1 hd
          simp only [registerDevice, JMap.get_set] at hd ⊢
          split at hd
          · rename_i he
            cases hd
            simp [he]
          · rename_i hne
            have h2 := h1 d1 c1 hd
            have hne2 : ¬ c.id = c1 := by
              intro e
              rw [← e, hk] at h2
              rcases hok with hok | hok
              · rw [hok] at h2; cases h2
              · rw [hok] at h2; exact hne (Option.some.inj h2)
            simp only [hne2, if_false]
            exact h2
      · exact h
  | deviceCmdResult c payload =>
    show Fwd (onDeviceCmdResult s c payload).state
    rw [onDeviceCmdResult_state]; exact h

theorem reachableBy_fwd {s : State} (h : ReachableBy noRebind s) : Fwd s := by
  refine reachableBy_induct ?_ (fun s ev hi hp _ hok => fwd_handle hi hp ev hok) h
  intro d c hd
  simp [State.empty] at hd

theorem disj_onDisconnect {s : State} (h : Disj s) (socket : Socket) :
    Disj (onDisconnect s socket).state := by
  intro c d hc
  rw [onDisconnect_deviceSocketMap] at hc
  simp only [JMap.get_delete] at hc
  split at hc
  · cases hc
  · rename_i hne
    have h1 := h c d hc
    rcases onDisconnect_tables s socket with ⟨_, _, hw⟩ | ⟨_, _, hw⟩
    · rw [hw]
      simp only [JMap.get_delete, hne, if_false]
      exact h1
    · rw [hw]
      exact h1

theorem disj_evictExisting {s : State} (h : Disj s) (socket : Socket) (d : JVal) :
    Disj (evictExisting s socket d).state := by
  rcases evictExisting_cases s socket d with ⟨_, e⟩ | ⟨_, e⟩ | ⟨_, _, _, _, e⟩ |
    ⟨_, existing, _, _, _, e⟩
  · rw [e]; exact h
  · rw [e]; exact h
  · rw [e]; exact h
  · rw [e]; exact disj_onDisconnect h existing

theorem disj_handle {s : State} (hi : Inv s) (h : Disj s) (ev : Event)
    (hok : noClassSwitch s ev = true) : Disj (handle s ev).state := by
  cases ev with
  | connection c => exact h
  | ping c => exact h
  | disconnect c => exact disj_onDisconnect h c
  | webLogin c payload =>
    show Disj (onWebLogin s c payload).state
    unfold onWebLogin
    cases payload with
    | none => exact h
    | some data =>
      simp only
      split
      · rename_i ht
        simp only [noClassSwitch, ht, Bool.not_true, Bool.false_or, Bool.not_eq_true'] at hok
        have hnone := (JMap.has_eq_false_iff _ _).mp hok
        intro c1 d1 hc
        simp only at hc
        have hne : ¬ c.id = c1 := by
          intro e
          rw [← e, hnone] at hc
          cases hc
        simp only [JMap.get_set, hne, if_false]
        exact h c1 d1 hc
      · exact h
  | webGetDeviceList c => exact h
  | webDeviceCmd c payload =>
    show Disj (onWebDeviceCmd s c payload).state
    rw [onWebDeviceCmd_state]; exact h
  | deviceLogin c payload =>
    show Disj (onDeviceLogin s c payload).state
    cases payload with
    | none => exact h
    | some data =>
      rw [onDeviceLogin_state]
      split
      · rename_i ht
        have h1 := disj_evictExisting h c data.deviceId
        split
        · exact h1
        · have hk := (evictExisting_keeps hi c data.deviceId).2.1
          simp only [noClassSwitch, ht, Bool.not_true, Bool.false_or,
            Bool.not_eq_true'] at hok
          have hnone := (JMap.has_eq_false_iff _ _).mp hok
          intro c1 d1 hc
          simp only [registerDevice, JMap.get_set] at hc ⊢
          split at hc
          · rename_i he
            rw [← he, hk]
            exact hnone
          · exact h1 c1 d1 hc
      · exact h
  | deviceCmdResult c payload =>
    show Disj (onDeviceCmdResult s c payload).state
    rw [onDeviceCmdResult_state]; exact h

theorem reachableBy_disj {s : State} (h : ReachableBy noClassSwitch s) : Disj s := by
  refine reachableBy_induct ?_ (fun s ev hi hp _ hok => disj_handle hi hp ev hok) h
  intro c d hc
  simp [State.empty] at hc

theorem oneIdentity_noRebind (s : State) (ev : Event) (h : oneIdentity s ev = true) :
    noRebind s ev = true := by
  simp only [oneIdentity, Bool.and_eq_true] at h
  exact h.1

theorem oneIdentity_noClassSwitch (s : State) (ev : Event) (h : oneIdentity s ev = true) :
    noClassSwitch s ev = true := by
  simp only [oneIdentity, Bool.and_eq_true] at h
  exact h.2

/-! ## The sample states are reachable -/

theorem rebindState_reachable : Reachable rebindState :=
  reachable_of_run rebindTrace _ (by decide)

theorem staleState_reachable : Reachable staleState :=
  reachable_of_run staleTrace _ (by decide)

theorem staleCmdState_reachable : Reachable staleCmdState :=
  reachable_of_run staleCmdTrace _ (by decide)

theorem takeoverState_reachable : ReachableBy oneIdentity takeoverState :=
  reachableBy_of_runBy takeoverTrace State.empty _ ReachableBy.init (by decide)

theorem takenState_reachable : ReachableBy oneIdentity takenState :=
  reachableBy_of_runBy takenTrace State.empty _ ReachableBy.init (by decide)

theorem dualState_reachable : Reachable dualState :=
  reachable_of_run dualTrace _ (by decide)

theorem pairState_reachable : ReachableBy oneIdentity pairState :=
  reachableBy_of_runBy pairTrace State.empty _ ReachableBy.init (by decide)

theorem rebindWebState_reachable : Reachable rebindWebState :=
  reachable_of_run rebindWebTrace _ (by decide)

theorem fleetState_reachable : ReachableBy oneIdentity fleetState :=
  reachableBy_of_runBy fleetTrace State.empty _ ReachableBy.init (by decide)

theorem ghostState_reachable : Reachable ghostState :=
  reachable_of_run ghostTrace _ (by decide)

theorem rebindGhostState_reachable : Reachable rebindGhostState :=
  reachable_of_run rebindGhostTrace _ (by decide)

theorem webFirstState_reachable : ReachableBy oneIdentity webFirstState :=
  reachableBy_of_runBy webFirstTrace State.empty _ ReachableBy.init (by decide)

/-! ## Consistency of the two device tables -/

/-- C1 (as stated, refuted): after socket `a` has logged in as `dev1` and then as `dev2`,
a reachable state has `deviceConnect` mapping `dev1` to `a` while `deviceSocketMap` maps
`a` to `dev2`, so the equivalence fails at `dev1` and `a`. -/
theorem deviceMaps_inconsistent_after_rebind :
    Reachable rebindState ∧
      ¬ (rebindState.deviceConnect.get dev1 = some "a" ↔
          rebindState.deviceSocketMap.get "a" = some dev1) :=
  ⟨rebindState_reachable, by decide⟩

/-- C1 (amended): in every state reachable by events in which no socket that holds a device
id logs in under a different one, `deviceConnect` maps `d` to `c` if and only if
`deviceSocketMap` maps `c` to `d`. -/
theorem deviceMaps_consistent_noRebind (s : State) (h : ReachableBy noRebind s)
    (d : JVal) (c : String) :
    s.deviceConnect.get d = some c ↔ s.deviceSocketMap.get c = some d :=
  ⟨reachableBy_fwd h d c, (reachableBy_inv h).back c d⟩

/-- C1 (amended), at the state after a takeover of `dev1` by socket `b`. -/
theorem deviceMaps_consistent_noRebind_witness :
    ReachableBy noRebind takenState ∧
      (takenState.deviceConnect.get dev1 = some "b" ↔
        takenState.deviceSocketMap.get "b" = some dev1) :=
  ⟨reachableBy_weaken oneIdentity_noRebind takenState_reachable,
    deviceMaps_consistent_noRebind takenState
      (reachableBy_weaken oneIdentity_noRebind takenState_reachable) dev1 "b"⟩

/-- C2: in every reachable state the inverse table `deviceSocketMap` is injective: two
socket ids that it maps to the same device id are equal. -/
theorem deviceSocketMap_injective (s : State) (h : Reachable s) (c1 c2 : String) (d : JVal)
    (h1 : s.deviceSocketMap.get c1 = some d) (h2 : s.deviceSocketMap.get c2 = some d) :
    c1 = c2 := by
  have e1 := (reachable_inv h).back c1 d h1
  have e2 := (reachable_inv h).back c2 d h2
  rw [e1] at e2
  exact Option.some.inj e2

/-- C2, at the state in which socket `a` has logged in as `dev1` and then as `dev2`. -/
theorem deviceSocketMap_injective_witness :
    Reachable rebindState ∧ rebindState.deviceSocketMap.get "a" = some dev2 ∧ "a" = "a" :=
  ⟨rebindState_reachable, by decide,
    deviceSocketMap_injective rebindState rebindState_reachable "a" "a" dev2
      (by decide) (by decide)⟩

/-! ## Device takeover -/

theorem sysMessages_flatMap_sendDeviceList (s : State) (c : String) (l : List Socket) :
    (receivedBy c (l.flatMap (sendDeviceList s))).filter OutMsg.isSysMessage = [] := by
  induction l with
  | nil => rfl
  | cons x l ih =>
    simp only [List.flatMap_cons, receivedBy, List.filterMap_append, List.filter_append] at ih ⊢
    rw [ih]
    simp only [sendDeviceList, List.filterMap_cons, List.filterMap_nil, List.append_nil]
    split
    · rfl
    · rename_i m hm
      split at hm
      · cases hm
        rfl
      · cases hm

theorem sysMessages_broadcast (s : State) (c : String) :
    (receivedBy c (broadcastDeviceListUpdate s)).filter OutMsg.isSysMessage = [] :=
  sysMessages_flatMap_sendDeviceList s c s.webConnect.values

theorem sysMessages_onDisconnect (s : State) (socket : Socket) (c : String) :
    (receivedBy c (onDisconnect s socket).out).filter OutMsg.isSysMessage = [] := by
  rcases onDisconnect_cases s socket with ⟨_, e⟩ | ⟨d, _, _, e⟩ | ⟨d, _, _, e⟩
  · rw [e]; rfl
  · rw [e]; exact sysMessages_broadcast _ c
  · rw [e]; rfl

/-- A `device:login` with a truthy device id whose eviction block does not raise: the
registration, the acknowledgment, and then the broadcast, or the raise of the
`console.log` when the device id has no string conversion. -/
theorem onDeviceLogin_registered (s : State) (socket : Socket) (d : JVal)
    (ht : d.truthy = true) (hr : (evictExisting s socket d).raised = false) :
    onDeviceLogin s socket (some ⟨d⟩) =
      { state := registerDevice (evictExisting s socket d).state socket d
        out := (evictExisting s socket d).out ++ Action.emit socket.id (deviceLoginOk d)
          :: (if d.printable then
                broadcastDeviceListUpdate (registerDevice (evictExisting s socket d).state socket d)
              else [])
        raised := !d.printable } := by
  unfold onDeviceLogin
  simp only [ht, hr, Bool.not_true, Bool.false_eq_true, if_false, deviceLoginOk]
  cases d.printable <;> simp [raise]

/-- C3 (as stated, refuted): socket `a` has logged in as `dev1` and then under a device id
without string conversion; `deviceConnect` maps `dev1` to `a`, which is in `connect`. When
socket `b` logs in as `dev1`, the disconnect handler of `a` raises inside the eviction:
the login stops after the notice and the close, `dev1` still maps to `a`, and `a` is
still in `connect`. -/
theorem takeover_aborted_by_raise :
    Reachable rebindGhostState ∧ rebindGhostState.deviceConnect.get dev1 = some "a" ∧
      rebindGhostState.connect.has "a" = true ∧ sockB.id ≠ "a" ∧
      onDeviceLogin rebindGhostState sockB (some ⟨dev1⟩) =
        raise { rebindGhostState with deviceConnect := ⟨[(dev1, "a")]⟩
                                      deviceSocketMap := ⟨[]⟩ }
          [Action.emit "a" evictionNotice, Action.close "a"] ∧
      (onDeviceLogin rebindGhostState sockB (some ⟨dev1⟩)).state.deviceConnect.get dev1 =
        some "a" ∧
      (onDeviceLogin rebindGhostState sockB (some ⟨dev1⟩)).state.connect.has "a" = true :=
  ⟨rebindGhostState_reachable, by decide, by decide, by decide, by decide, by decide,
    by decide⟩

/-- C3 (amended): in a reachable state where `deviceConnect` maps `d` to a socket id `c1`
that is in `connect`, and the device id that `deviceSocketMap` holds for `c1`, if any, has
a string conversion, a `device:login` with device id `d` from another socket `socket2`
first emits the eviction notice to `c1` and closes `c1`, whose disconnect handler
completes, then installs the new mapping: `c1` receives exactly one `sys:message`, the
notice; the registry is the registration of `socket2` on the registry left by the
disconnect of `c1`, in which `c1` is not in `connect` and `d` was not yet mapped to
`socket2`; afterwards `d` maps to `socket2`, `socket2` is the only socket mapped to `d`,
and `c1` is in neither `connect` nor `deviceSocketMap`. The acknowledgment follows the
actions of the eviction, and the broadcast follows it unless `d` has no string
conversion, in which case the handler raises there. -/
theorem device_takeover (s : State) (hs : Reachable s) (d : JVal) (c1 : String)
    (socket2 : Socket) (hd : s.deviceConnect.get d = some c1)
    (hc1 : s.connect.has c1 = true) (hne : socket2.id ≠ c1)
    (hp : ∀ d1, s.deviceSocketMap.get c1 = some d1 → d1.printable = true) :
    (onDeviceLogin s socket2 (some ⟨d⟩)).out =
        Action.emit c1 evictionNotice :: Action.close c1 ::
          ((onDisconnect s ⟨c1⟩).out ++ Action.emit socket2.id (deviceLoginOk d)
            :: (if d.printable then
                  broadcastDeviceListUpdate (onDeviceLogin s socket2 (some ⟨d⟩)).state
                else [])) ∧
      (receivedBy c1 (onDeviceLogin s socket2 (some ⟨d⟩)).out).filter OutMsg.isSysMessage =
        [evictionNotice] ∧
      (onDeviceLogin s socket2 (some ⟨d⟩)).state =
        registerDevice (onDisconnect s ⟨c1⟩).state socket2 d ∧
      (onDisconnect s ⟨c1⟩).raised = false ∧
      (onDisconnect s ⟨c1⟩).state.connect.get c1 = none ∧
      (onDisconnect s ⟨c1⟩).state.deviceConnect.get d ≠ some socket2.id ∧
      (onDeviceLogin s socket2 (some ⟨d⟩)).state.deviceConnect.get d = some socket2.id ∧
      (onDeviceLogin s socket2 (some ⟨d⟩)).state.deviceSocketMap.get socket2.id = some d ∧
      (∀ c, (onDeviceLogin s socket2 (some ⟨d⟩)).state.deviceSocketMap.get c = some d →
        c = socket2.id) ∧
      (onDeviceLogin s socket2 (some ⟨d⟩)).state.connect.get c1 = none ∧
      (onDeviceLogin s socket2 (some ⟨d⟩)).state.deviceSocketMap.get c1 = none ∧
      (onDeviceLogin s socket2 (some ⟨d⟩)).raised = !d.printable := by
  have hi := reachable_inv hs
  have ht := hi.truthyKeys d c1 hd
  obtain ⟨existing, hex⟩ := (JMap.has_eq_true_iff _ _).mp hc1
  have hid := hi.connectId c1 existing hex
  have hexeq : existing = ⟨c1⟩ := by
    cases existing
    simp only at hid
    rw [hid]
  subst hexeq
  have hne2 : ¬ c1 = socket2.id := fun e => hne e.symm
  obtain ⟨hok, hst⟩ := onDisconnect_ok s ⟨c1⟩ hp
  have hev : evictExisting s socket2 d =
      { state := (onDisconnect s ⟨c1⟩).state
        out := Action.emit c1 evictionNotice :: Action.close c1 :: (onDisconnect s ⟨c1⟩).out
        raised := false } := by
    unfold evictExisting
    simp only [hd, hex, ne_eq, hne2, not_false_eq_true, if_true, evictionNotice, hok]
  have hnoH := evictExisting_noHolder hi socket2 d
  rw [onDeviceLogin_registered s socket2 d ht (by rw [hev])]
  rw [hev] at hnoH ⊢
  simp only at hnoH
  have hgone : (onDisconnect s ⟨c1⟩).state.connect.get c1 = none := by
    rw [hst]
    simp [JMap.get_delete]
  have hgone2 : (onDisconnect s ⟨c1⟩).state.deviceSocketMap.get c1 = none := by
    rw [hst]
    simp [JMap.get_delete]
  have hnot : (onDisconnect s ⟨c1⟩).state.deviceConnect.get d ≠ some socket2.id := by
    rw [hst]
    simp only
    cases s.deviceSocketMap.get c1 with
    | none =>
      simp only [hd]
      intro e
      exact hne2 (Option.some.inj e)
    | some d0 =>
      simp only [JMap.get_delete]
      split
      · simp
      · rw [hd]
        intro e
        exact hne2 (Option.some.inj e)
  refine ⟨rfl, ?_, rfl, hok, hgone, hnot, ?_, ?_, ?_, ?_, ?_, rfl⟩
  · have h1 := sysMessages_onDisconnect s ⟨c1⟩ c1
    have h2 := sysMessages_broadcast (registerDevice (onDisconnect s ⟨c1⟩).state socket2 d) c1
    simp only [receivedBy] at h1 h2
    cases d.printable with
    | true =>
      simp only [List.cons_append, receivedBy, List.filterMap_cons, if_true,
        List.filterMap_append, List.filter_cons, evictionNotice, OutMsg.isSysMessage,
        List.filter_append, hne, if_false, h1, h2, List.append_nil]
    | false =>
      simp only [List.cons_append, receivedBy, List.filterMap_cons, if_true,
        List.filterMap_append, List.filter_cons, evictionNotice, OutMsg.isSysMessage,
        List.filter_append, hne, if_false, h1, List.append_nil, Bool.false_eq_true,
        List.filterMap_nil, List.filter_nil]
  · simp [registerDevice, JMap.get_set]
  · simp [registerDevice, JMap.get_set]
  · intro c hc
    simp only [registerDevice, JMap.get_set] at hc
    split at hc
    · rename_i he
      exact he.symm
    · exact hnoH c hc
  · simp only [registerDevice]
    exact hgone
  · simp only [registerDevice, JMap.get_set, hne, if_false]
    exact hgone2

/-- C3 (amended), at the state where socket `a` holds `dev1` and socket `b` logs in as
`dev1`. -/
theorem device_takeover_witness :
    (receivedBy "a" (onDeviceLogin takeoverState sockB (some ⟨dev1⟩)).out).filter
        OutMsg.isSysMessage = [evictionNotice] ∧
      (onDeviceLogin takeoverState sockB (some ⟨dev1⟩)).state = takenState ∧
      (onDeviceLogin takeoverState sockB (some ⟨dev1⟩)).raised = false :=
  have h := device_takeover takeoverState (reachableBy_mono takeoverState_reachable) dev1 "a"
    sockB (by decide) (by decide) (by decide) (by decide)
  ⟨h.2.1, by decide, h.2.2.2.2.2.2.2.2.2.2.2⟩

/-! ## Commands to a device whose socket is gone -/

/-- C4 (failing input): in the reachable state left by socket `a` logging in as `dev1`,
then as `dev2`, then disconnecting, `deviceConnect` still maps `dev1` to `a`, which is not
in `connect`; a well-formed `web:device_cmd` for `dev1` from the live socket `b` then
raises (`connect.get("a")` is `undefined`) and no `web:cmd_result` is sent. -/
theorem webDeviceCmd_stale_entry_raises :
    Reachable staleCmdState ∧
      staleCmdState.connect.get sockB.id = some sockB ∧
      staleCmdState.deviceConnect.get rebootCmd.deviceId = some "a" ∧
      staleCmdState.connect.has "a" = false ∧
      onWebDeviceCmd staleCmdState sockB (some rebootCmd) =
        { state := staleCmdState, out := [], raised := true } :=
  ⟨staleCmdState_reachable, by decide, by decide, by decide, by decide⟩

/-! ## Disconnect cleanup -/

/-- C5 (as stated, refuted): socket `a` has logged in as `dev1` and then as `dev2`; after
its disconnect is processed, `a` is still the value of the `dev1` entry of
`deviceConnect`. -/
theorem disconnect_leaves_stale_device_entry :
    Reachable rebindState ∧ rebindState.connect.get sockA.id = some sockA ∧
      "a" ∈ (onDisconnect rebindState sockA).state.deviceConnect.values :=
  ⟨rebindState_reachable, by decide, by decide⟩

/-- C5 (amended): after the disconnect handler of a socket has run in any state, its id is
not a key of `deviceSocketMap`; when the device id that `deviceSocketMap` held for it, if
any, has a string conversion, the handler completes and the id is not a key of `connect`
or of `webConnect` either; and when the state was reached by events in which no socket
that holds a device id logs in under a different one, its id is not the value of any
entry of `deviceConnect`. -/
theorem disconnect_purges (s : State) (socket : Socket) :
    socket.id ∉ (onDisconnect s socket).state.deviceSocketMap.keys ∧
      ((∀ d, s.deviceSocketMap.get socket.id = some d → d.printable = true) →
        (onDisconnect s socket).raised = false ∧
        socket.id ∉ (onDisconnect s socket).state.connect.keys ∧
        socket.id ∉ (onDisconnect s socket).state.webConnect.keys) ∧
      (ReachableBy noRebind s →
        socket.id ∉ (onDisconnect s socket).state.deviceConnect.values) := by
  have hm : (onDisconnect s socket).state.deviceSocketMap.get socket.id = none := by
    rw [onDisconnect_deviceSocketMap]; simp [JMap.get_delete]
  refine ⟨(JMap.not_mem_keys_iff _ _).mpr hm, ?_, ?_⟩
  · intro hp
    obtain ⟨hok, hst⟩ := onDisconnect_ok s socket hp
    refine ⟨hok, (JMap.not_mem_keys_iff _ _).mpr ?_, (JMap.not_mem_keys_iff _ _).mpr ?_⟩
    · rw [hst]; simp [JMap.get_delete]
    · rw [hst]; simp [JMap.get_delete]
  · intro hr hmem
    have hi := inv_onDisconnect (reachableBy_inv hr) socket
    have hf := fwd_onDisconnect (reachableBy_fwd hr) socket
    obtain ⟨d, hd⟩ := (JMap.mem_values_iff _ hi.nodupDevice _).mp hmem
    have := hf d socket.id hd
    rw [hm] at this
    cases this

/-- C5 (amended), at the disconnect of socket `b` after it took over `dev1`. -/
theorem disconnect_purges_witness :
    ReachableBy noRebind takenState ∧
      "b" ∉ (onDisconnect takenState sockB).state.connect.keys ∧
      "b" ∉ (onDisconnect takenState sockB).state.webConnect.keys ∧
      "b" ∉ (onDisconnect takenState sockB).state.deviceConnect.values :=
  ⟨reachableBy_weaken oneIdentity_noRebind takenState_reachable,
    ((disconnect_purges takenState sockB).2.1 (by decide)).2.1,
    ((disconnect_purges takenState sockB).2.1 (by decide)).2.2,
    (disconnect_purges takenState sockB).2.2
      (reachableBy_weaken oneIdentity_noRebind takenState_reachable)⟩

/-! ## Identity classes -/

/-- C6 (as stated, refuted): after socket `a` logs in as a web client and then as device
`dev1`, a reachable state has `a` both as a value of `deviceConnect` and as a key of
`webConnect`. -/
theorem socket_both_device_and_web :
    Reachable dualState ∧ "a" ∈ dualState.deviceConnect.values ∧
      "a" ∈ dualState.webConnect.keys :=
  ⟨dualState_reachable, by decide, by decide⟩

/-- C6 (amended): in every state reachable by events in which no socket in the web table
sends `device:login`, no socket that holds a device id sends `web:login`, and no socket
that holds a device id logs in under a different one, no socket id is both a value of
`deviceConnect` and a key of `webConnect`. -/
theorem device_web_disjoint (s : State) (h : ReachableBy oneIdentity s) (c : String) :
    ¬ (c ∈ s.deviceConnect.values ∧ c ∈ s.webConnect.keys) := by
  rintro ⟨hd, hw⟩
  have hi := reachableBy_inv h
  have hf := reachableBy_fwd (reachableBy_weaken oneIdentity_noRebind h)
  have hj := reachableBy_disj (reachableBy_weaken oneIdentity_noClassSwitch h)
  obtain ⟨d, hd2⟩ := (JMap.mem_values_iff _ hi.nodupDevice _).mp hd
  obtain ⟨v, hv⟩ := (JMap.mem_keys_iff _ _).mp hw
  have := hj c d (hf d c hd2)
  rw [hv] at this
  cases this

/-- C6 (amended), at the state with device socket `a` and web socket `b`. -/
theorem device_web_disjoint_witness :
    ReachableBy oneIdentity pairState ∧
      ¬ ("a" ∈ pairState.deviceConnect.values ∧ "a" ∈ pairState.webConnect.keys) :=
  ⟨pairState_reachable, device_web_disjoint pairState pairState_reachable "a"⟩

/-! ## Identities refer to live connections -/

/-- C7 (as stated, refuted): after socket `a` logs in as `dev1`, then as `dev2`, then
disconnects, a reachable state has `a` as a value of `deviceConnect` although `a` is not
a key of `connect`. -/
theorem device_entry_without_connection :
    Reachable staleState ∧ "a" ∈ staleState.deviceConnect.values ∧
      "a" ∉ staleState.connect.keys :=
  ⟨staleState_reachable, by decide, by decide⟩

/-- C7 (amended): in every reachable state every key of `webConnect` is a key of
`connect`; and in every state reached by events in which no socket that holds a device id
logs in under a different one, every value of `deviceConnect` is a key of `connect`. -/
theorem identities_live (s : State) :
    (Reachable s → ∀ c ∈ s.webConnect.keys, c ∈ s.connect.keys) ∧
      (ReachableBy noRebind s → ∀ c ∈ s.deviceConnect.values, c ∈ s.connect.keys) := by
  constructor
  · intro h c hc
    obtain ⟨v, hv⟩ := (JMap.mem_keys_iff _ _).mp hc
    exact (JMap.mem_keys_iff _ _).mpr ⟨v, (reachable_inv h).webLive c v hv⟩
  · intro h c hc
    have hi := reachableBy_inv h
    obtain ⟨d, hd⟩ := (JMap.mem_values_iff _ hi.nodupDevice _).mp hc
    have hl := hi.inverseLive c d (reachableBy_fwd h d c hd)
    exact (JMap.mem_keys_iff _ _).mpr ((JMap.has_eq_true_iff _ _).mp hl)

/-- C7 (amended), at the state with device socket `a` and web socket `b`. -/
theorem identities_live_witness :
    (Reachable pairState ∧ "b" ∈ pairState.connect.keys) ∧
      (ReachableBy noRebind pairState ∧ "a" ∈ pairState.connect.keys) :=
  ⟨⟨reachableBy_mono pairState_reachable,
      (identities_live pairState).1 (reachableBy_mono pairState_reachable) "b" (by decide)⟩,
    ⟨reachableBy_weaken oneIdentity_noRebind pairState_reachable,
      (identities_live pairState).2
        (reachableBy_weaken oneIdentity_noRebind pairState_reachable) "a" (by decide)⟩⟩

/-! ## Command dispatch -/

/-- C8: for every state, a `web:device_cmd` from `socket` whose `deviceId`, `command` and
`params` are all truthy (any object is) and whose `deviceId` maps in `deviceConnect` to an
id `c` under which `connect` holds the socket `device` performs exactly two actions, in
this order: `device:cmd` with the same command and params and `from` the sender to
`device`, then `web:cmd_result` with success true to the sender; the registry is unchanged
and nothing is raised. In a reachable state the id of `device` is `c`. -/
theorem webDeviceCmd_success (s : State) (socket : Socket) (data : DeviceCmdData)
    (c : String) (device : Socket) (h1 : data.deviceId.truthy = true)
    (h2 : data.command.truthy = true) (h3 : data.params.truthy = true)
    (hd : s.deviceConnect.get data.deviceId = some c) (hc : s.connect.get c = some device) :
    onWebDeviceCmd s socket (some data) =
        { state := s
          out := [Action.emit device.id (OutMsg.deviceCmd data.command data.params socket.id),
                  Action.emit socket.id (OutMsg.webCmdResult true (sentText data.deviceId))]
          raised := false } ∧
      (Reachable s → device.id = c) := by
  constructor
  · simp [onWebDeviceCmd, h1, h2, h3, hd, hc]
  · intro hr
    exact (reachable_inv hr).connectId c device hc

/-- C8, at the state with device socket `a` holding `dev1` and web socket `b`, for a
command whose `params` is an empty object. -/
theorem webDeviceCmd_success_witness :
    onWebDeviceCmd pairState sockB (some rebootCmd) =
      { state := pairState
        out := [Action.emit "a" (OutMsg.deviceCmd (JVal.str "reboot") (JVal.obj 0) "b"),
                Action.emit "b" (OutMsg.webCmdResult true (sentText dev1))]
        raised := false } :=
  (webDeviceCmd_success pairState sockB rebootCmd "a" sockA (by decide) (by decide)
    (by decide) (by decide) (by decide)).1

/-- C9 (failing input): in the reachable state with device socket `a` and web socket `b`,
the live socket `b` sends `web:device_cmd` without payload: the handler raises at the
first read of a field of `data`, performs no action, so no `web:cmd_result` with the
malformed-command text reaches `b`. -/
theorem webDeviceCmd_no_payload_raises :
    Reachable pairState ∧ enabled pairState (Event.webDeviceCmd sockB none) = true ∧
      handle pairState (Event.webDeviceCmd sockB none) =
        { state := pairState, out := [], raised := true } ∧
      receivedBy "b" (handle pairState (Event.webDeviceCmd sockB none)).out = [] :=
  ⟨reachableBy_mono pairState_reachable, by decide, by decide, by decide⟩

/-- The order of the checks of `web:device_cmd` for a payload that is present: when
`deviceId`, `command` or `params` is falsy the handler performs exactly one action,
`web:cmd_result` with success false and the malformed-command text to the sender, whatever
`deviceConnect` holds for the device id, leaves the registry unchanged and raises nothing;
and a `web:cmd_result` with the device-offline text is among the actions only when all
three fields are truthy and the device id is not a key of `deviceConnect`. -/
theorem webDeviceCmd_validation_order (s : State) (socket : Socket) (data : DeviceCmdData) :
    ((data.deviceId.truthy = false ∨ data.command.truthy = false ∨
        data.params.truthy = false) →
      onWebDeviceCmd s socket (some data) =
        { state := s
          out := [Action.emit socket.id (OutMsg.webCmdResult false malformedText)]
          raised := false }) ∧
      (∀ target d, Action.emit target (OutMsg.webCmdResult false (offlineText d))
          ∈ (onWebDeviceCmd s socket (some data)).out →
        data.deviceId.truthy = true ∧ data.command.truthy = true ∧
          data.params.truthy = true ∧ data.deviceId ∉ s.deviceConnect.keys) := by
  constructor
  · intro h
    unfold onWebDeviceCmd
    rcases h with h | h | h <;> simp [h]
  · intro target d hmem
    unfold onWebDeviceCmd at hmem
    simp only at hmem
    split at hmem
    · simp [malformedText, offlineText] at hmem
    · rename_i hv
      simp only [Bool.or_eq_true, Bool.not_eq_true', not_or, Bool.not_eq_false] at hv
      obtain ⟨⟨hv1, hv2⟩, hv3⟩ := hv
      split at hmem
      · rename_i hnone
        exact ⟨hv1, hv2, hv3, (JMap.not_mem_keys_iff _ _).mpr hnone⟩
      · split at hmem
        · simp [raise] at hmem
        · simp [offlineText, sentText] at hmem

/-- The order of the checks at a state where `dev1` is online: a command without `params`
is rejected as malformed, and a command for the unknown `dev2` is the one rejected as
offline. -/
theorem webDeviceCmd_validation_order_witness :
    onWebDeviceCmd pairState sockB (some ⟨dev1, JVal.str "reboot", JVal.undefined⟩) =
        { state := pairState
          out := [Action.emit "b" (OutMsg.webCmdResult false malformedText)]
          raised := false } ∧
      dev2 ∉ pairState.deviceConnect.keys :=
  ⟨(webDeviceCmd_validation_order pairState sockB
      ⟨dev1, JVal.str "reboot", JVal.undefined⟩).1 (Or.inr (Or.inr (by decide))),
    ((webDeviceCmd_validation_order pairState sockB
      ⟨dev2, JVal.str "reboot", JVal.obj 0⟩).2 "b" dev2 (by decide)).2.2.2⟩

/-! ## Result correlation -/

/-- C10: for every state, a `device:cmd_result` from `socket` whose `to` field is the
string `t`, with `connect` holding the socket `target` under `t`, performs exactly one
action: `web:device_cmd_result` to `target`, with `deviceId` the value of
`deviceSocketMap` at the sender (`d` when the sender is mapped to `d`) and with the
`command`, `success`, `result` and `message` of the incoming message; the registry is
unchanged and nothing is raised. Socket ids are non-empty strings: this is assumed of `t`
in an arbitrary state and holds of every key of `connect` in a reachable one, where the
id of `target` is `t` as well. -/
theorem deviceCmdResult_forwarded (s : State) (socket : Socket) (data : CmdResultData)
    (t : String) (target : Socket) (hto : data.dest = JVal.str t)
    (hne : t ≠ "" ∨ Reachable s) (ht : s.connect.get t = some target) :
    onDeviceCmdResult s socket (some data) =
        { state := s
          out := [Action.emit target.id
            (OutMsg.webDeviceCmdResult ((s.deviceSocketMap.get socket.id).getD JVal.undefined)
              data.command data.success data.result data.message)]
          raised := false } ∧
      (∀ d, s.deviceSocketMap.get socket.id = some d →
        (s.deviceSocketMap.get socket.id).getD JVal.undefined = d) ∧
      (Reachable s → target.id = t) := by
  have hne2 : t ≠ "" := by
    rcases hne with h | h
    · exact h
    · exact (reachable_inv h).connectNonempty t target ht
  refine ⟨?_, ?_, ?_⟩
  · simp [onDeviceCmdResult, hto, JVal.truthy, hne2, lookupSocket, ht]
  · intro d hd
    rw [hd]
    rfl
  · intro hr
    exact (reachable_inv hr).connectId t target ht

/-- C10, at the state with device socket `a` holding `dev1` and web socket `b`: the result
of `a` addressed to `b` reaches `b` tagged with `dev1`. -/
theorem deviceCmdResult_forwarded_witness :
    onDeviceCmdResult pairState sockA
        (some ⟨JVal.str "b", JVal.str "reboot", JVal.bool true, JVal.str "ok",
          JVal.undefined⟩) =
      { state := pairState
        out := [Action.emit "b" (OutMsg.webDeviceCmdResult dev1 (JVal.str "reboot")
          (JVal.bool true) (JVal.str "ok") JVal.undefined)]
        raised := false } :=
  (deviceCmdResult_forwarded pairState sockA
    ⟨JVal.str "b", JVal.str "reboot", JVal.bool true, JVal.str "ok", JVal.undefined⟩
    "b" sockB rfl (Or.inr (reachableBy_mono pairState_reachable)) (by decide)).1

/-! ## Orphaned results -/

/-- C11 (failing input): in the reachable state with device socket `a` and web socket `b`,
the live socket `a` sends `device:cmd_result` without payload, so without `to`: the
handler raises at the read of `data.to` instead of dropping the result silently. -/
theorem deviceCmdResult_no_payload_raises :
    Reachable pairState ∧ enabled pairState (Event.deviceCmdResult sockA none) = true ∧
      handle pairState (Event.deviceCmdResult sockA none) =
        { state := pairState, out := [], raised := true } :=
  ⟨reachableBy_mono pairState_reachable, by decide, by decide⟩

/-- For every state, a `device:cmd_result` with a payload whose `to` field is falsy
(missing, empty) or is not a key of `connect` performs no action at all, leaves the
registry unchanged and raises nothing. -/
theorem deviceCmdResult_orphan_dropped (s : State) (socket : Socket) (data : CmdResultData)
    (h : data.dest.truthy = false ∨ lookupSocket s.connect data.dest = none) :
    onDeviceCmdResult s socket (some data) = { state := s, out := [], raised := false } := by
  unfold onDeviceCmdResult
  simp only
  rcases h with h | h
  · simp [h]
  · rw [h]
    split <;> rfl

/-- The drop of a result with a payload, for a result without `to` and for a result
addressed to the socket `a` that has left the registry. -/
theorem deviceCmdResult_orphan_dropped_witness :
    onDeviceCmdResult takenState sockB
        (some ⟨JVal.undefined, JVal.str "reboot", JVal.bool true, JVal.str "ok",
          JVal.undefined⟩) =
        { state := takenState, out := [], raised := false } ∧
      onDeviceCmdResult takenState sockB
        (some ⟨JVal.str "a", JVal.str "reboot", JVal.bool true, JVal.str "ok",
          JVal.undefined⟩) =
        { state := takenState, out := [], raised := false } :=
  ⟨deviceCmdResult_orphan_dropped takenState sockB _ (Or.inl (by decide)),
    deviceCmdResult_orphan_dropped takenState sockB _ (Or.inr (by decide))⟩

/-! ## Logins -/

/-- C14: for every state, a `web:login` from `socket` with truthy `username` and
`password` puts `socket` into `webConnect` under its id and leaves `connect`,
`deviceConnect` and `deviceSocketMap` as they are; it performs exactly two actions, both
emits to `socket`: `web:login_result` with success true and the supplied username, then
`sys:device_list` with the keys and size of `deviceConnect`; nothing is raised. -/
theorem webLogin_success (s : State) (socket : Socket) (data : WebLoginData)
    (hu : data.username.truthy = true) (hp : data.password.truthy = true) :
    onWebLogin s socket (some data) =
        { state := { s with webConnect := s.webConnect.set socket.id socket }
          out := [Action.emit socket.id (OutMsg.webLoginResult true "登录成功" (some data.username)),
                  Action.emit socket.id (deviceListOf s)]
          raised := false } ∧
      (onWebLogin s socket (some data)).state.webConnect.get socket.id = some socket ∧
      socket.id ∈ (onWebLogin s socket (some data)).state.webConnect.keys ∧
      (∀ c, c ≠ socket.id → receivedBy c (onWebLogin s socket (some data)).out = []) := by
  have h1 : onWebLogin s socket (some data) =
      { state := { s with webConnect := s.webConnect.set socket.id socket }
        out := [Action.emit socket.id (OutMsg.webLoginResult true "登录成功" (some data.username)),
                Action.emit socket.id (deviceListOf s)]
        raised := false } := by
    simp [onWebLogin, hu, hp, sendDeviceList, deviceListOf]
  have h2 : (s.webConnect.set socket.id socket).get socket.id = some socket := by
    simp [JMap.get_set]
  refine ⟨h1, ?_, ?_, ?_⟩
  · rw [h1]; exact h2
  · rw [h1]; exact (JMap.mem_keys_iff _ _).mpr ⟨socket, h2⟩
  · intro c hc
    rw [h1]
    simp [receivedBy, hc.symm]

/-- C14, for the login of socket `b` while socket `a` holds `dev1`. -/
theorem webLogin_success_witness :
    onWebLogin takeoverState sockB (some goodLogin) =
      { state := pairState
        out := [Action.emit "b" (OutMsg.webLoginResult true "登录成功" (some (JVal.str "admin"))),
                Action.emit "b" (OutMsg.sysDeviceList [dev1] 1)]
        raised := false } :=
  (webLogin_success takeoverState sockB goodLogin (by decide) (by decide)).1

/-- C15 (failing input): in the reachable state where socket `a` holds `dev1` and socket
`b` is connected, the live socket `b` sends `device:login` without payload, and `web:login`
without payload: each handler raises at the first read of a field of `data` and emits
no login result. -/
theorem login_no_payload_raises :
    Reachable takeoverState ∧
      enabled takeoverState (Event.deviceLogin sockB none) = true ∧
      handle takeoverState (Event.deviceLogin sockB none) =
        { state := takeoverState, out := [], raised := true } ∧
      enabled takeoverState (Event.webLogin sockB none) = true ∧
      handle takeoverState (Event.webLogin sockB none) =
        { state := takeoverState, out := [], raised := true } :=
  ⟨reachableBy_mono takeoverState_reachable, by decide, by decide, by decide, by decide⟩

/-- For every state, a `device:login` with a payload whose `deviceId` is falsy and a
`web:login` with a payload whose `username` or `password` is falsy leave the registry
unchanged, raise nothing, and perform exactly one action: the login result with success
false, emitted to the sender. -/
theorem rejected_login_atomic (s : State) (socket : Socket) :
    (∀ data : DeviceLoginData, data.deviceId.truthy = false →
      onDeviceLogin s socket (some data) =
        { state := s
          out := [Action.emit socket.id (OutMsg.deviceLoginResult false "设备ID不能为空" none)]
          raised := false }) ∧
      (∀ data : WebLoginData, data.username.truthy = false ∨ data.password.truthy = false →
        onWebLogin s socket (some data) =
          { state := s
            out := [Action.emit socket.id
              (OutMsg.webLoginResult false "用户名和密码不能为空" none)]
            raised := false }) := by
  constructor
  · intro data h
    simp [onDeviceLogin, h]
  · intro data h
    unfold onWebLogin
    rcases h with h | h <;> simp [h]

/-- The rejection of a `device:login` with an empty device id and of a `web:login`
without password. -/
theorem rejected_login_atomic_witness :
    onDeviceLogin pairState sockB (some ⟨JVal.str ""⟩) =
        { state := pairState
          out := [Action.emit "b" (OutMsg.deviceLoginResult false "设备ID不能为空" none)]
          raised := false } ∧
      onWebLogin pairState sockA (some ⟨JVal.str "admin", JVal.undefined⟩) =
        { state := pairState
          out := [Action.emit "a" (OutMsg.webLoginResult false "用户名和密码不能为空" none)]
          raised := false } :=
  ⟨(rejected_login_atomic pairState sockB).1 ⟨JVal.str ""⟩ (by decide),
    (rejected_login_atomic pairState sockA).2 ⟨JVal.str "admin", JVal.undefined⟩
      (Or.inr (by decide))⟩

/-! ## Idempotent cleanup -/

theorem JMap.delete_delete {K V : Type} [DecidableEq K] (m : JMap K V) (k : K) :
    (m.delete k).delete k = m.delete k :=
  JMap.delete_of_get_none _ _ (by simp [JMap.get_delete])

/-- C16 (failing input): socket `a` has logged in under a device id without string
conversion. Its disconnect handler raises after the two device deletes and leaves `a` in
`connect`; run a second time, the handler removes `a` from `connect`, so two runs do not
leave the registry that one run leaves. -/
theorem disconnect_raise_not_idempotent :
    Reachable ghostState ∧ enabled ghostState (Event.disconnect sockA) = true ∧
      onDisconnect ghostState sockA =
        raise { ghostState with deviceConnect := ⟨[]⟩, deviceSocketMap := ⟨[]⟩ } [] ∧
      "a" ∈ (onDisconnect ghostState sockA).state.connect.keys ∧
      "a" ∉ (onDisconnect (onDisconnect ghostState sockA).state sockA).state.connect.keys ∧
      (onDisconnect (onDisconnect ghostState sockA).state sockA).state ≠
        (onDisconnect ghostState sockA).state :=
  ⟨ghostState_reachable, by decide, by decide, by decide, by decide, by decide⟩

/-- For every state and every socket whose device id in `deviceSocketMap`, if any, has a
string conversion, the disconnect handler completes, and run a second time it leaves the
registry as the first run left it, performs no action and does not raise. -/
theorem disconnect_idempotent (s : State) (socket : Socket)
    (hp : ∀ d, s.deviceSocketMap.get socket.id = some d → d.printable = true) :
    (onDisconnect (onDisconnect s socket).state socket).state =
        (onDisconnect s socket).state ∧
      (onDisconnect (onDisconnect s socket).state socket).out = [] ∧
      (onDisconnect s socket).raised = false ∧
      (onDisconnect (onDisconnect s socket).state socket).raised = false := by
  obtain ⟨hok, hst⟩ := onDisconnect_ok s socket hp
  have hm : (onDisconnect s socket).state.deviceSocketMap.get socket.id = none := by
    rw [onDisconnect_deviceSocketMap]; simp [JMap.get_delete]
  rcases onDisconnect_cases (onDisconnect s socket).state socket with
    ⟨_, e⟩ | ⟨d, hg, _, _⟩ | ⟨d, hg, _, _⟩
  · rw [e]
    refine ⟨?_, rfl, hok, rfl⟩
    simp only
    rw [dropConnection_eq, hst]
    simp only [JMap.delete_delete]
  · rw [hm] at hg; cases hg
  · rw [hm] at hg; cases hg

/-- The second run of the disconnect handler at the state with device socket `a` and web
socket `b`, for `a`. -/
theorem disconnect_idempotent_witness :
    (onDisconnect (onDisconnect pairState sockA).state sockA).state =
        (onDisconnect pairState sockA).state ∧
      (onDisconnect (onDisconnect pairState sockA).state sockA).out = [] :=
  have h := disconnect_idempotent pairState sockA (by decide)
  ⟨h.1, h.2.1⟩

/-! ## The device-list snapshot -/

/-- C18: for every state, `sendDeviceList` performs one action, the emit to the given
socket of `sys:device_list` with `devices` the keys of `deviceConnect` in iteration order
and `count` its number of entries; `count` is the length of `devices`; and in every
reachable state `devices` has no duplicate. -/
theorem sendDeviceList_snapshot (s : State) (socket : Socket) :
    sendDeviceList s socket =
        [Action.emit socket.id
          (OutMsg.sysDeviceList (s.deviceConnect.entries.map Prod.fst)
            s.deviceConnect.entries.length)] ∧
      s.deviceConnect.size = s.deviceConnect.keys.length ∧
      (Reachable s → s.deviceConnect.keys.Nodup) := by
  refine ⟨rfl, ?_, fun h => (reachable_inv h).nodupDevice⟩
  simp [JMap.size, JMap.keys]

/-- C18, at the state in which socket `a` has logged in as `dev1` and then as `dev2`. -/
theorem sendDeviceList_snapshot_witness :
    sendDeviceList rebindState sockA = [Action.emit "a" (OutMsg.sysDeviceList [dev1, dev2] 2)] ∧
      rebindState.deviceConnect.keys.Nodup :=
  ⟨(sendDeviceList_snapshot rebindState sockA).1,
    (sendDeviceList_snapshot rebindState sockA).2.2 rebindState_reachable⟩

/-! ## The inverse table points back -/

/-- C19: in every reachable state, whenever `deviceSocketMap` maps `c` to `d`,
`deviceConnect` maps `d` to `c`; and the disconnect handler of a socket leaves every
`deviceConnect` entry whose value is another socket id as it is. -/
theorem inverse_entry_points_back (s : State) (h : Reachable s) :
    (∀ c d, s.deviceSocketMap.get c = some d → s.deviceConnect.get d = some c) ∧
      (∀ (socket : Socket) (d : JVal) (c : String), s.deviceConnect.get d = some c →
        c ≠ socket.id → (onDisconnect s socket).state.deviceConnect.get d = some c) := by
  have hi := reachable_inv h
  refine ⟨hi.back, ?_⟩
  intro socket d c hd hne
  rw [onDisconnect_deviceConnect]
  cases hg : s.deviceSocketMap.get socket.id with
  | none => exact hd
  | some d0 =>
    simp only [JMap.get_delete]
    have hb := hi.back socket.id d0 hg
    have hne2 : ¬ d0 = d := by
      intro e
      subst e
      rw [hb] at hd
      exact hne (Option.some.inj hd).symm
    simp only [hne2, if_false]
    exact hd

/-- C19, at the state with device socket `a` holding `dev1` and web socket `b`: the
entry of `a` points back, and it survives the disconnect of `b`. -/
theorem inverse_entry_points_back_witness :
    Reachable pairState ∧ pairState.deviceConnect.get dev1 = some "a" ∧
      (onDisconnect pairState sockB).state.deviceConnect.get dev1 = some "a" :=
  ⟨reachableBy_mono pairState_reachable,
    (inverse_entry_points_back pairState (reachableBy_mono pairState_reachable)).1
      "a" dev1 (by decide),
    (inverse_entry_points_back pairState (reachableBy_mono pairState_reachable)).2
      sockB dev1 "a" (by decide) (by decide)⟩

/-! ## Dispatch and the identity class of the sender -/

/-- C20: for every state and every replacement `w` of the web table, a `web:device_cmd`
performs the same actions, raises or not alike, and leaves `connect`, `deviceConnect` and
`deviceSocketMap` alike; so a sender that is not in `webConnect` has a well-formed command
for an online device forwarded to that device all the same. -/
theorem webDeviceCmd_ignores_web_table (s : State) (w : JMap String Socket) (socket : Socket)
    (data : DeviceCmdData) :
    (onWebDeviceCmd (s.withWeb w) socket (some data)).out = (onWebDeviceCmd s socket (some data)).out ∧
      (onWebDeviceCmd (s.withWeb w) socket (some data)).raised =
        (onWebDeviceCmd s socket (some data)).raised ∧
      (onWebDeviceCmd (s.withWeb w) socket (some data)).state.connect =
        (onWebDeviceCmd s socket (some data)).state.connect ∧
      (onWebDeviceCmd (s.withWeb w) socket (some data)).state.deviceConnect =
        (onWebDeviceCmd s socket (some data)).state.deviceConnect ∧
      (onWebDeviceCmd (s.withWeb w) socket (some data)).state.deviceSocketMap =
        (onWebDeviceCmd s socket (some data)).state.deviceSocketMap ∧
      (∀ c device, s.webConnect.has socket.id = false → data.deviceId.truthy = true →
        data.command.truthy = true → data.params.truthy = true →
        s.deviceConnect.get data.deviceId = some c → s.connect.get c = some device →
        (onWebDeviceCmd s socket (some data)).out =
          [Action.emit device.id (OutMsg.deviceCmd data.command data.params socket.id),
            Action.emit socket.id (OutMsg.webCmdResult true (sentText data.deviceId))]) := by
  refine ⟨?_, ?_, ?_, ?_, ?_, ?_⟩
  · unfold onWebDeviceCmd State.withWeb
    simp only
    split
    · rfl
    · split
      · split <;> rfl
      · split <;> rfl
  · unfold onWebDeviceCmd State.withWeb
    simp only
    split
    · rfl
    · split
      · split <;> rfl
      · split <;> rfl
  · rw [onWebDeviceCmd_state, onWebDeviceCmd_state]; rfl
  · rw [onWebDeviceCmd_state, onWebDeviceCmd_state]; rfl
  · rw [onWebDeviceCmd_state, onWebDeviceCmd_state]; rfl
  · intro c device _ h1 h2 h3 hd hc
    simp [onWebDeviceCmd, h1, h2, h3, hd, hc]

/-- C20, at the state where socket `a` holds `dev1` and socket `b` is connected but has
not logged in: the command of `b` is forwarded to `a`, and so is the command that the
device socket `a` sends for `dev1`. -/
theorem webDeviceCmd_ignores_web_table_witness :
    takeoverState.webConnect.has "b" = false ∧
      (onWebDeviceCmd takeoverState sockB (some rebootCmd)).out =
        [Action.emit "a" (OutMsg.deviceCmd (JVal.str "reboot") (JVal.obj 0) "b"),
          Action.emit "b" (OutMsg.webCmdResult true (sentText dev1))] ∧
      (onWebDeviceCmd takeoverState sockA (some rebootCmd)).out =
        [Action.emit "a" (OutMsg.deviceCmd (JVal.str "reboot") (JVal.obj 0) "a"),
          Action.emit "a" (OutMsg.webCmdResult true (sentText dev1))] :=
  ⟨by decide,
    (webDeviceCmd_ignores_web_table takeoverState takeoverState.webConnect sockB rebootCmd).2.2.2.2.2
      "a" sockA (by decide) (by decide) (by decide) (by decide) (by decide) (by decide),
    (webDeviceCmd_ignores_web_table takeoverState takeoverState.webConnect sockA rebootCmd).2.2.2.2.2
      "a" sockA (by decide) (by decide) (by decide) (by decide) (by decide) (by decide)⟩

/-! ## The end-to-end scenario -/

/-- C12: from the empty registry, for distinct sockets `a` and `b` with non-empty ids, a
truthy device id `d`, truthy credentials, a truthy command and truthy params, every event
of the scenario is delivered and the actions are, event by event: the connection notice
to `a`; the login acknowledgment to `a`; the connection notice to `b`; for the web login
of `b`, the login result and then `sys:device_list` with devices `[d]` and count 1, both
to `b`; for the command of `b`, `device:cmd` with that command, those params and
`from` the id of `b` to `a`, then `web:cmd_result` with success true to `b`; for the
result of `a` addressed to `b`, `web:device_cmd_result` to `b` with device id `d` and the
same command, success, result and message. The same holds when both sockets connect
before `a` logs in. -/
theorem scenario_end_to_end (a b : Socket) (d : JVal) (creds : WebLoginData)
    (cmd params success result message : JVal) (hab : a.id ≠ b.id) (ha : a.id ≠ "")
    (hb : b.id ≠ "") (hd : d.truthy = true) (hu : creds.username.truthy = true)
    (hp : creds.password.truthy = true) (hcmd : cmd.truthy = true)
    (hparams : params.truthy = true) :
    (run State.empty (scenario a b d creds cmd params success result message)).isSome = true ∧
      (outcomes State.empty (scenario a b d creds cmd params success result message)).map
          Outcome.out =
        [[Action.emit a.id (connectNotice a)],
          [Action.emit a.id (deviceLoginOk d)],
          [Action.emit b.id (connectNotice b)],
          [Action.emit b.id (OutMsg.webLoginResult true "登录成功" (some creds.username)),
            Action.emit b.id (OutMsg.sysDeviceList [d] 1)],
          [Action.emit a.id (OutMsg.deviceCmd cmd params b.id),
            Action.emit b.id (OutMsg.webCmdResult true (sentText d))],
          [Action.emit b.id (OutMsg.webDeviceCmdResult d cmd success result message)]] ∧
      (run State.empty
        (scenarioConnected a b d creds cmd params success result message)).isSome = true ∧
      (outcomes State.empty
          (scenarioConnected a b d creds cmd params success result message)).map
          Outcome.out =
        [[Action.emit a.id (connectNotice a)],
          [Action.emit b.id (connectNotice b)],
          [Action.emit a.id (deviceLoginOk d)],
          [Action.emit b.id (OutMsg.webLoginResult true "登录成功" (some creds.username)),
            Action.emit b.id (OutMsg.sysDeviceList [d] 1)],
          [Action.emit a.id (OutMsg.deviceCmd cmd params b.id),
            Action.emit b.id (OutMsg.webCmdResult true (sentText d))],
          [Action.emit b.id (OutMsg.webDeviceCmdResult d cmd success result message)]] := by
  have hba : ¬ b.id = a.id := fun e => hab e.symm
  have hbt : (JVal.str b.id).truthy = true := by simp [JVal.truthy, hb]
  refine ⟨?_, ?_, ?_, ?_⟩ <;> cases hpr : d.printable <;>
    simp [raise, hpr, run, runBy, outcomes, scenario, scenarioConnected, anyEvent, enabled,
      handle, Event.socket, onConnection, onDeviceLogin, onWebLogin, onWebDeviceCmd,
      onDeviceCmdResult, evictExisting, registerDevice, State.empty, JMap.empty, JMap.has,
      JMap.get, JMap.set, JMap.getL, JMap.setL, hab, hba, ha, hb, hd, hu, hp, hcmd, hparams,
      hbt, lookupSocket, broadcastDeviceListUpdate, sendDeviceList, JMap.values, JMap.keys,
      JMap.size, deviceLoginOk, connectNotice]

/-- C12, for sockets `a` and `b`, device id `dev1` and the command `reboot` with an empty
object as params. -/
theorem scenario_end_to_end_witness :
    (run State.empty
        (scenario sockA sockB dev1 goodLogin (JVal.str "reboot") (JVal.obj 0)
          (JVal.bool true) (JVal.str "ok") JVal.undefined)).isSome = true ∧
      (outcomes State.empty
          (scenario sockA sockB dev1 goodLogin (JVal.str "reboot") (JVal.obj 0)
            (JVal.bool true) (JVal.str "ok") JVal.undefined)).map Outcome.out =
        [[Action.emit "a" (connectNotice sockA)],
          [Action.emit "a" (deviceLoginOk dev1)],
          [Action.emit "b" (connectNotice sockB)],
          [Action.emit "b" (OutMsg.webLoginResult true "登录成功" (some (JVal.str "admin"))),
            Action.emit "b" (OutMsg.sysDeviceList [dev1] 1)],
          [Action.emit "a" (OutMsg.deviceCmd (JVal.str "reboot") (JVal.obj 0) "b"),
            Action.emit "b" (OutMsg.webCmdResult true (sentText dev1))],
          [Action.emit "b" (OutMsg.webDeviceCmdResult dev1 (JVal.str "reboot")
            (JVal.bool true) (JVal.str "ok") JVal.undefined)]] :=
  have h := scenario_end_to_end sockA sockB dev1 goodLogin (JVal.str "reboot") (JVal.obj 0)
    (JVal.bool true) (JVal.str "ok") JVal.undefined (by decide) (by decide) (by decide)
    (by decide) (by decide) (by decide) (by decide) (by decide)
  ⟨h.1, h.2.1⟩

/-! ## Broadcasts -/

theorem receivedBy_flatMap_sendDeviceList (s : State) (w : String)
    (es : List (String × Socket)) (hid : ∀ p ∈ es, p.2.id = p.1)
    (hn : (es.map Prod.fst).Nodup) :
    receivedBy w ((es.map Prod.snd).flatMap (sendDeviceList s)) =
      if w ∈ es.map Prod.fst then [deviceListOf s] else [] := by
  induction es with
  | nil => rfl
  | cons p es ih =>
    obtain ⟨k, v⟩ := p
    have hv : v.id = k := hid (k, v) (List.mem_cons_self _ _)
    simp only [List.map_cons, List.nodup_cons] at hn
    have ih2 := ih (fun q hq => hid q (List.mem_cons_of_mem _ hq)) hn.2
    simp only [receivedBy] at ih2
    simp only [List.map_cons, List.flatMap_cons, receivedBy, List.filterMap_append, ih2,
      sendDeviceList, List.filterMap_cons, List.filterMap_nil, hv, List.mem_cons]
    by_cases hk : k = w
    · subst hk
      simp [hn.1, deviceListOf]
    · have hk2 : ¬ w = k := fun e => hk e.symm
      simp only [hk, if_false, List.nil_append, hk2, false_or]

/-- In a registry whose web table holds every socket under its own id, without duplicate
key, a broadcast sends each socket of the web table one device list and nobody else
anything. -/
theorem receivedBy_broadcast (s : State) (hn : s.webConnect.keys.Nodup)
    (hid : ∀ k v, s.webConnect.get k = some v → v.id = k) (w : String) :
    receivedBy w (broadcastDeviceListUpdate s) =
      if w ∈ s.webConnect.keys then [deviceListOf s] else [] := by
  unfold broadcastDeviceListUpdate JMap.values JMap.keys
  refine receivedBy_flatMap_sendDeviceList s w s.webConnect.entries ?_ hn
  intro p hp
  obtain ⟨k, v⟩ := p
  exact hid k v (JMap.getL_of_mem s.webConnect.entries hn k v hp)

theorem broadcast_only_lists (s : State) :
    ∀ a ∈ broadcastDeviceListUpdate s, ∃ w, a = Action.emit w (deviceListOf s) := by
  intro a ha
  unfold broadcastDeviceListUpdate at ha
  obtain ⟨x, _, hx⟩ := List.mem_flatMap.mp ha
  simp only [sendDeviceList, List.mem_singleton] at hx
  exact ⟨x.id, hx⟩

theorem loginResults_of_lists (l : List Action)
    (h : ∀ a ∈ l, ∃ w devices count, a = Action.emit w (OutMsg.sysDeviceList devices count)) :
    (emitted l).filter OutMsg.isDeviceLoginResult = [] := by
  induction l with
  | nil => rfl
  | cons a l ih =>
    obtain ⟨w, ds, n, ha⟩ := h a (List.mem_cons_self _ _)
    have ih2 := ih (fun b hb => h b (List.mem_cons_of_mem _ hb))
    simp only [emitted] at ih2
    subst ha
    simp only [emitted, List.filterMap_cons, List.filter_cons, OutMsg.isDeviceLoginResult, ih2]
    rfl

theorem loginResults_broadcast (s : State) :
    (emitted (broadcastDeviceListUpdate s)).filter OutMsg.isDeviceLoginResult = [] := by
  refine loginResults_of_lists _ ?_
  intro a ha
  obtain ⟨w, hw⟩ := broadcast_only_lists s a ha
  exact ⟨w, _, _, hw⟩

theorem loginResults_onDisconnect (s : State) (socket : Socket) :
    (emitted (onDisconnect s socket).out).filter OutMsg.isDeviceLoginResult = [] := by
  rcases onDisconnect_cases s socket with ⟨_, e⟩ | ⟨d, _, _, e⟩ | ⟨d, _, _, e⟩
  · rw [e]; rfl
  · rw [e]; exact loginResults_broadcast _
  · rw [e]; rfl

theorem loginResults_evictExisting (s : State) (socket : Socket) (d : JVal) :
    (emitted (evictExisting s socket d).out).filter OutMsg.isDeviceLoginResult = [] := by
  rcases evictExisting_cases s socket d with ⟨_, e⟩ | ⟨_, e⟩ | ⟨_, _, _, _, e⟩ |
    ⟨_, existing, _, _, _, e⟩
  · rw [e]; rfl
  · rw [e]; rfl
  · rw [e]; rfl
  · rw [e]
    have h := loginResults_onDisconnect s existing
    simp only [emitted] at h
    simp only [emitted, List.filterMap_cons, List.filter_cons, OutMsg.isDeviceLoginResult, h]
    rfl

/-! ## Successful device login -/

/-- C13 (failing input): in the reachable state where socket `b` is a web client and
socket `a` is connected, `a` sends `device:login` with a device id without string
conversion (as `{"toString": null}`): the handler sets both tables and emits the
acknowledgment, then raises at the `console.log` of the device id, and the broadcast
never runs: the web client `b` receives no `sys:device_list`. -/
theorem deviceLogin_raises_before_broadcast :
    Reachable webFirstState ∧ enabled webFirstState (Event.deviceLogin sockA (some ⟨ghost⟩)) = true ∧
      ghost.truthy = true ∧ "b" ∈ webFirstState.webConnect.keys ∧
      onDeviceLogin webFirstState sockA (some ⟨ghost⟩) =
        raise (registerDevice webFirstState sockA ghost)
          [Action.emit "a" (deviceLoginOk ghost)] ∧
      (onDeviceLogin webFirstState sockA (some ⟨ghost⟩)).state.deviceConnect.get ghost =
        some "a" ∧
      receivedBy "b" (onDeviceLogin webFirstState sockA (some ⟨ghost⟩)).out = [] :=
  ⟨reachableBy_mono webFirstState_reachable, by decide, by decide, by decide, by decide,
    by decide, by decide⟩

/-- In every reachable state, a `device:login` from `socket` with a truthy device id `d`
that has a string conversion, whose eviction block does not raise, performs the actions
of the eviction block, then emits to `socket` the acknowledgment with success true and
device id `d`, the only `device:login_result` of the handler, then broadcasts: after the
acknowledgment every socket whose id is a key of `webConnect` at that time receives
exactly one message, the `sys:device_list` with the keys of `deviceConnect` after the
login as devices and its number of entries as count, any other socket receives nothing,
and nothing but these lists is sent; `d` occurs exactly once in these devices. -/
theorem deviceLogin_success (s : State) (hs : Reachable s) (socket : Socket) (d : JVal)
    (hd : d.truthy = true) (hp : d.printable = true)
    (hr : (evictExisting s socket d).raised = false) :
    (onDeviceLogin s socket (some ⟨d⟩)).out =
        (evictExisting s socket d).out ++ Action.emit socket.id (deviceLoginOk d)
          :: broadcastDeviceListUpdate (onDeviceLogin s socket (some ⟨d⟩)).state ∧
      (emitted (onDeviceLogin s socket (some ⟨d⟩)).out).filter OutMsg.isDeviceLoginResult =
        [deviceLoginOk d] ∧
      (∀ w, receivedBy w
          (broadcastDeviceListUpdate (onDeviceLogin s socket (some ⟨d⟩)).state) =
        if w ∈ (onDeviceLogin s socket (some ⟨d⟩)).state.webConnect.keys then
          [OutMsg.sysDeviceList (onDeviceLogin s socket (some ⟨d⟩)).state.deviceConnect.keys
            (onDeviceLogin s socket (some ⟨d⟩)).state.deviceConnect.entries.length]
        else []) ∧
      (∀ a ∈ broadcastDeviceListUpdate (onDeviceLogin s socket (some ⟨d⟩)).state,
        ∃ w, a = Action.emit w (deviceListOf (onDeviceLogin s socket (some ⟨d⟩)).state)) ∧
      (onDeviceLogin s socket (some ⟨d⟩)).state.deviceConnect.keys.count d = 1 ∧
      (onDeviceLogin s socket (some ⟨d⟩)).raised = false := by
  have hi := reachable_inv hs
  have hi1 := inv_evictExisting hi socket d
  rw [onDeviceLogin_registered s socket d hd hr]
  simp only [hp, if_true, Bool.not_true]
  refine ⟨trivial, ?_, ?_, broadcast_only_lists _, ?_, trivial⟩
  · have h1 := loginResults_evictExisting s socket d
    have h2 := loginResults_broadcast (registerDevice (evictExisting s socket d).state socket d)
    simp only [emitted] at h1 h2
    simp only [emitted, List.filterMap_append, List.filter_append, List.filterMap_cons,
      List.filter_cons, h1, h2, deviceLoginOk, OutMsg.isDeviceLoginResult, if_true,
      List.nil_append]
  · intro w
    exact receivedBy_broadcast (registerDevice (evictExisting s socket d).state socket d)
      hi1.nodupWeb (fun k v hk => hi1.connectId k v (hi1.webLive k v hk)) w
  · refine List.count_eq_one_of_mem ?_ ?_
    · exact JMap.nodup_keys_set _ _ _ hi1.nodupDevice
    · exact (JMap.mem_keys_iff _ _).mpr ⟨socket.id, by simp [registerDevice, JMap.get_set]⟩

/-- The successful login at the state with device socket `a` and web socket `b`, for a
login of `a` as `dev1`: the web socket `b` receives the list `[dev1]` with count 1. -/
theorem deviceLogin_success_witness :
    receivedBy "b"
        (broadcastDeviceListUpdate (onDeviceLogin pairState sockA (some ⟨dev1⟩)).state) =
        [OutMsg.sysDeviceList [dev1] 1] ∧
      (emitted (onDeviceLogin pairState sockA (some ⟨dev1⟩)).out).filter
        OutMsg.isDeviceLoginResult = [deviceLoginOk dev1] :=
  have h := deviceLogin_success pairState (reachableBy_mono pairState_reachable) sockA dev1
    (by decide) (by decide) (by decide)
  ⟨(h.2.2.1 "b").trans (by decide), h.2.1⟩

/-! ## The broadcast of a disconnect -/

/-- C17 (as stated, refuted): socket `a` has logged in as `dev1` and then as `dev2`, and
socket `b` is a web client; when `a` disconnects, `b` receives a device list that still
contains `dev1`, which `deviceConnect` mapped to `a` before the disconnect. -/
theorem disconnect_broadcast_lists_stale_device :
    Reachable rebindWebState ∧ rebindWebState.deviceSocketMap.has "a" = true ∧
      rebindWebState.deviceConnect.get dev1 = some "a" ∧
      receivedBy "b" (onDisconnect rebindWebState sockA).out =
        [OutMsg.sysDeviceList [dev1] 1] :=
  ⟨rebindWebState_reachable, by decide, by decide, by decide⟩

/-- C17 (amended): in every reachable state, when the socket that disconnects is mapped
by `deviceSocketMap` to a device id `d0` that has a string conversion, every socket whose
id is a key of `webConnect` receives exactly one message, the `sys:device_list` of
`deviceConnect` without its `d0` entry, and no other socket receives anything; `d0` is
not in that list; and when the state was reached by events in which no socket that holds
a device id logs in under a different one, the list contains no device id that
`deviceConnect` mapped to the disconnecting socket. -/
theorem disconnect_broadcast (s : State) (hs : Reachable s) (socket : Socket) (d0 : JVal)
    (hdev : s.deviceSocketMap.get socket.id = some d0) (hp : d0.printable = true) :
    (∀ w, receivedBy w (onDisconnect s socket).out =
        if w ∈ s.webConnect.keys then
          [OutMsg.sysDeviceList (s.deviceConnect.delete d0).keys
            (s.deviceConnect.delete d0).entries.length]
        else []) ∧
      d0 ∉ (s.deviceConnect.delete d0).keys ∧
      (ReachableBy noRebind s → ∀ d ∈ (s.deviceConnect.delete d0).keys,
        s.deviceConnect.get d ≠ some socket.id) := by
  have hi := reachable_inv hs
  refine ⟨?_, ?_, ?_⟩
  · intro w
    rcases onDisconnect_cases s socket with ⟨hg, _⟩ | ⟨d, hg, _, e⟩ | ⟨d, hg, hd, _⟩
    · rw [hdev] at hg; cases hg
    · rw [hdev] at hg
      cases hg
      rw [e]
      exact receivedBy_broadcast (dropDevice s socket d0)
        hi.nodupWeb (fun k v hk => hi.connectId k v (hi.webLive k v hk)) w
    · rw [hdev] at hg
      cases hg
      rw [hp] at hd
      cases hd
  · exact (JMap.not_mem_keys_iff _ _).mpr (by simp [JMap.get_delete])
  · intro hr d hmem hget
    obtain ⟨c, hc⟩ := (JMap.mem_keys_iff _ _).mp hmem
    simp only [JMap.get_delete] at hc
    split at hc
    · cases hc
    · rename_i hne
      have := reachableBy_fwd hr d socket.id hget
      rw [hdev] at this
      exact hne (Option.some.inj this)

/-- C17 (amended), at the disconnect of the device socket `a` while `b` is a web client
and socket `c` holds `dev2`: `b` receives the list `[dev2]`, and `dev2` was not mapped
to `a`. -/
theorem disconnect_broadcast_witness :
    receivedBy "b" (onDisconnect fleetState sockA).out = [OutMsg.sysDeviceList [dev2] 1] ∧
      dev1 ∉ (fleetState.deviceConnect.delete dev1).keys ∧
      fleetState.deviceConnect.get dev2 ≠ some "a" :=
  have h := disconnect_broadcast fleetState (reachableBy_mono fleetState_reachable) sockA dev1
    (by decide) (by decide)
  ⟨(h.1 "b").trans (by decide), h.2.1,
    h.2.2 (reachableBy_weaken oneIdentity_noRebind fleetState_reachable) dev2 (by decide)⟩

end Broker
